import Mathlib

/-!
Verification of the SDL-to-schema builder (`build_schema.go`).

The development shallowly embeds the builder: the AST structures of the
`graphql-go` `ast` package (as consumed by the builder), the constructed
`graphql` types as a tagged union, the `SchemaConfigBuilder` state, and the
build pipeline of `buildSchemaConfig`.  Go maps are modelled as insertion-
ordered association lists with overwrite-on-insert; Go's `(value, error)`
returns are modelled with `Except String`; thunks (closures capturing the
builder) are modelled by storing the captured data in the constructed type
and passing the builder explicitly to the forcing function.
-/

set_option autoImplicit false

namespace GraphQLBuild

/-! ## Association lists standing in for Go maps -/

/-- Go map read `m[k]`: the value for `k`, if present. -/
def lookupA {α : Type} : List (String × α) → String → Option α
  | [], _ => none
  | (k, v) :: rest, key => if k = key then some v else lookupA rest key

/-- Go map write `m[k] = v`: overwrite the entry for `k`, else append it. -/
def insertA {α : Type} : List (String × α) → String → α → List (String × α)
  | [], key, v => [(key, v)]
  | (k, w) :: rest, key, v =>
    if k = key then (k, v) :: rest else (k, w) :: insertA rest key v

/-! ## AST model (`graphql-go/language/ast`, as read by `build_schema.go`) -/

/-- `ast.Type`: the type-reference shapes.  `other` stands for any dynamic
kind besides `*ast.List`, `*ast.NonNull`, `*ast.Named` (none is produced by
the parser, but `getWrappedType` has an error path for them). -/
inductive ASTType where
  | named (name : String)
  | list (ofType : ASTType)
  | nonNull (ofType : ASTType)
  | other
deriving DecidableEq, Repr

/-- `ast.Value` literals.  They are only carried through to the external
`valueFromAST` / `getArgumentValues` coercions of `graphql-go`; no claim
reads the coerced value, so composite literals are elided. -/
inductive ASTValue where
  | intV (i : Int)
  | stringV (s : String)
  | boolV (b : Bool)
  | enumV (s : String)
deriving DecidableEq, Repr

/-- `ast.Directive`: a directive use attached to a definition. -/
structure DirectiveUse where
  name : String
  arguments : List (String × ASTValue)
deriving DecidableEq, Repr

/-- `ast.InputValueDefinition`: an argument or input-object field. -/
structure InputValueDefinition where
  name : String
  description : Option String
  type : ASTType
  defaultValue : Option ASTValue
deriving DecidableEq, Repr

/-- `ast.FieldDefinition`. -/
structure FieldDefinition where
  name : String
  description : Option String
  type : ASTType
  arguments : List InputValueDefinition
deriving DecidableEq, Repr

/-- `ast.ObjectDefinition`; `interfaces` keeps the `Name.Value` of each
`*ast.Named` in `Interfaces` (the only part the builder reads). -/
structure ObjectDefinition where
  name : String
  description : Option String
  interfaces : List String
  fields : List FieldDefinition
deriving DecidableEq, Repr

/-- `ast.InterfaceDefinition`. -/
structure InterfaceDefinition where
  name : String
  description : Option String
  fields : List FieldDefinition
deriving DecidableEq, Repr

/-- `ast.EnumValueDefinition`. -/
structure EnumValueDefinition where
  name : String
  description : Option String
deriving DecidableEq, Repr

/-- `ast.EnumDefinition`, with its `Directives` list. -/
structure EnumDefinition where
  name : String
  description : Option String
  values : List EnumValueDefinition
  directives : List DirectiveUse
deriving DecidableEq, Repr

/-- `ast.UnionDefinition`; `types` keeps the member type names. -/
structure UnionDefinition where
  name : String
  description : Option String
  types : List String
deriving DecidableEq, Repr

/-- `ast.ScalarDefinition`. -/
structure ScalarDefinition where
  name : String
  description : Option String
deriving DecidableEq, Repr

/-- `ast.InputObjectDefinition`. -/
structure InputObjectDefinition where
  name : String
  description : Option String
  fields : List InputValueDefinition
deriving DecidableEq, Repr

/-- `ast.TypeExtensionDefinition`: wraps an object definition. -/
structure TypeExtensionDefinition where
  definition : ObjectDefinition
deriving DecidableEq, Repr

/-- `ast.OperationTypeDefinition` in a schema block. -/
structure OperationTypeDefinition where
  operation : String
  typeName : String
deriving DecidableEq, Repr

/-- `ast.SchemaDefinition`. -/
structure SchemaDefinition where
  operationTypes : List OperationTypeDefinition
deriving DecidableEq, Repr

/-- `ast.DirectiveDefinition`. -/
structure DirectiveDefinition where
  name : String
  description : Option String
  locations : List String
  arguments : List InputValueDefinition
deriving DecidableEq, Repr

/-- A top-level definition of an `ast.Document`.  `otherDef` stands for any
definition kind the classifier's type switch does not mention (ignored). -/
inductive Definition where
  | schemaDef (d : SchemaDefinition)
  | typeExtension (d : TypeExtensionDefinition)
  | directiveDef (d : DirectiveDefinition)
  | objectDef (d : ObjectDefinition)
  | interfaceDef (d : InterfaceDefinition)
  | enumDef (d : EnumDefinition)
  | scalarDef (d : ScalarDefinition)
  | inputObjectDef (d : InputObjectDefinition)
  | unionDef (d : UnionDefinition)
  | otherDef
deriving DecidableEq, Repr

/-- `ast.Document` (assumed well-formed: the `Kind` check of
`BuildAstSchema` is outside every claim). -/
structure Document where
  definitions : List Definition
deriving DecidableEq, Repr

/-- Go's `description := ""; if node.Description != nil { ... }` pattern. -/
def descOf (d : Option String) : String := d.getD ""

/-! ## Constructed types (`graphql` package values, as this repo builds them)

Every value the builder stores in its registry is a pointer
(`*Object`, `*Interface`, ...); `GType` is the tagged union of those
dynamic values.  An `object` keeps what its two thunks captured: the whole
definition node (captured by the interfaces thunk) and the merged base +
extension field definitions (merged eagerly in `buildFieldsThunk` before
the closure is returned). -/

structure EnumValueConfig where
  description : String
  deprecationReason : String
deriving Repr

inductive GType where
  | scalar (name description : String)
  | object (name description : String) (node : ObjectDefinition)
      (fieldDefs : List FieldDefinition)
  | interfaceT (name description : String) (fieldDefs : List FieldDefinition)
  | enum (name description : String) (values : List (String × EnumValueConfig))
  | union (name description : String) (types : List GType)
  | inputObject (name description : String) (node : InputObjectDefinition)
  | listT (ofType : GType)
  | nonNull (ofType : GType)
deriving Repr

/-- The name of a named constructed type (wrappers have no name of their
own; for them this returns the inner name, which no claim relies on). -/
def nameOfGType : GType → String
  | .scalar n _ => n
  | .object n _ _ _ => n
  | .interfaceT n _ _ => n
  | .enum n _ _ => n
  | .union n _ _ => n
  | .inputObject n _ _ => n
  | .listT t => nameOfGType t
  | .nonNull t => nameOfGType t

/-! ## Go interface casts used by the builder

An assertion to a concrete type (`*Object`, `*Interface`, the struct
value `Interface`) succeeds exactly when the dynamic type matches; the
registry only ever holds the pointer values enumerated by `GType`.  An
assertion to an interface type (`Input`, `Output`) is structural: it
succeeds whenever the dynamic type has the interface's method set. -/

/-- `x.(Input)` (lines 440, 547): graphql-go's `Input` is the structural
four-method interface with `Name() string`, `Description() string`,
`String() string` and `Error() error`.  Every constructed type —
`*Scalar`, `*Enum`, `*InputObject`, `*List`, `*NonNull`, and also
`*Object`, `*Interface`, `*Union` — has that method set, so the
assertion succeeds for every resolved type; only the untyped nil left by
a discarded resolution error fails it (modelled by the error branch of
the callers, never by this predicate). -/
def isInput : GType → Bool := fun _ => true

/-- `x.(Output)` (line 479): graphql-go's `Output` is the same structural
four-method interface, which every constructed type — `*InputObject`
included — satisfies, so the assertion never fails for a resolved type
and the `Casting to Output failed` arm below it is dead code. -/
def isOutput : GType → Bool := fun _ => true

/-- `x.(*Object)` (union members, operation roots, conventional roots). -/
def castToObjectPtr : GType → Option GType
  | t@(.object _ _ _ _) => some t
  | _ => none

/-- `x.(*Interface)` (extension interfaces, line 395). -/
def castToInterfacePtr : GType → Option GType
  | t@(.interfaceT _ _ _) => some t
  | _ => none

/-- `namedInterface.(Interface)` (base interfaces, line 382): asserts the
struct *value* type `Interface`, but the registry only ever stores the
pointer `*Interface` (`NewInterface` returns a pointer), so this assertion
never succeeds. -/
def castToInterfaceValue : GType → Option GType := fun _ => none

/-! ## Builder state -/

structure SchemaConfigBuilder where
  typeExtensionsMap : List (String × List TypeExtensionDefinition)
  typeMap : List (String × GType)
  stdTypeMap : List (String × GType)

/-- `GetNamed` (graphql-go): strip `List`/`NonNull` wrappers. -/
def getNamed : GType → GType
  | .listT t => getNamed t
  | .nonNull t => getNamed t
  | t => t

/-- `getNamedType` (lines 522-536): standard tier first, then the user
tier; the stored value is never `nil`, so the `ttype != nil` guard of the
source is vacuous here. -/
def getNamedType (c : SchemaConfigBuilder) (name : String) : Except String GType :=
  match lookupA c.stdTypeMap name with
  | some ttype => .ok (getNamed ttype)
  | none =>
    match lookupA c.typeMap name with
    | some ttype => .ok (getNamed ttype)
    | none => .error ("Unknown type: \"" ++ name ++ "\"")

/-- `getWrappedType` (lines 567-590).  The `wrapped.(Type)` assertions of
the `List`/`NonNull` arms always succeed (everything resolved is a
constructed type), so only the final default error path remains for
non-List/NonNull/Named shapes. -/
def getWrappedType (c : SchemaConfigBuilder) : ASTType → Except String GType
  | .list t =>
    match getWrappedType c t with
    | .error e => .error e
    | .ok wrapped => .ok (.listT wrapped)
  | .nonNull t =>
    match getWrappedType c t with
    | .error e => .error e
    | .ok wrapped => .ok (.nonNull wrapped)
  | .named n => getNamedType c n
  | .other =>
    .error "buildWrappedType received an ast.Type that was not a List, NonNull, or Named"

/-! ## Arguments and fields -/

/-- `*ArgumentConfig`.  The default value is the AST literal handed to the
external `valueFromAST` coercion (graphql-go); no claim reads the coerced
value, so the literal is carried uncoerced. -/
structure ArgumentConfig where
  type : GType
  description : String
  defaultValue : Option ASTValue
deriving Repr

/-- Loop body of `buildArgumentMap` (lines 539-562): resolution failure
aborts; a resolved type failing the `argType.(Input)` assertion is skipped
without error. -/
def buildArgumentMapAux (c : SchemaConfigBuilder)
    (argMap : List (String × ArgumentConfig)) :
    List InputValueDefinition → Except String (List (String × ArgumentConfig))
  | [] => .ok argMap
  | arg :: rest =>
    match getWrappedType c arg.type with
    | .error e => .error e
    | .ok argType =>
      if isInput argType then
        buildArgumentMapAux c
          (insertA argMap arg.name
            ⟨argType, descOf arg.description, arg.defaultValue⟩) rest
      else
        buildArgumentMapAux c argMap rest

/-- `buildArgumentMap` (lines 539-562). -/
def buildArgumentMap (c : SchemaConfigBuilder) (args : List InputValueDefinition) :
    Except String (List (String × ArgumentConfig)) :=
  buildArgumentMapAux c [] args

/-- A built `graphql.Field`. -/
structure Field where
  name : String
  description : String
  args : List (String × ArgumentConfig)
  type : GType
deriving Repr

/-- Loop body of `buildFieldMap` (lines 457-489): resolve the wrapped
type, build the argument map, then the `wrapped.(Output)` assertion must
succeed or the whole map fails. -/
def buildFieldMapAux (c : SchemaConfigBuilder) (fields : List (String × Field)) :
    List FieldDefinition → Except String (List (String × Field))
  | [] => .ok fields
  | f :: rest =>
    match getWrappedType c f.type with
    | .error e => .error e
    | .ok wrapped =>
      match buildArgumentMap c f.arguments with
      | .error e => .error e
      | .ok argMap =>
        if isOutput wrapped then
          buildFieldMapAux c
            (insertA fields f.name ⟨f.name, descOf f.description, argMap, wrapped⟩) rest
        else
          .error "Casting to Output failed"

/-- `buildFieldMap` (lines 457-489). -/
def buildFieldMap (c : SchemaConfigBuilder) (fieldDefs : List FieldDefinition) :
    Except String (List (String × Field)) :=
  buildFieldMapAux c [] fieldDefs

/-- The field definitions every extension fragment registered for `name`
contributes, in registration order (lines 420-422). -/
def extensionFieldDefs (c : SchemaConfigBuilder) (name : String) :
    List FieldDefinition :=
  ((lookupA c.typeExtensionsMap name).getD []).flatMap
    (fun en => en.definition.fields)

/-- Body of the closure returned by `buildFieldsThunk` (lines 424-432);
in Go a resolution failure panics inside the thunk, modelled as the error
case. -/
def forceFieldsThunk (c : SchemaConfigBuilder) (fieldDefs : List FieldDefinition) :
    Except String (List (String × Field)) :=
  buildFieldMap c fieldDefs

/-- First loop of the `buildInterfacesThunk` closure (lines 375-385): the
object definition's own interfaces.  A resolution failure panics
(error case); the `namedInterface.(Interface)` value-type assertion
decides membership. -/
def forceBaseInterfaces (c : SchemaConfigBuilder) (acc : List GType) :
    List String → Except String (List GType)
  | [] => .ok acc
  | n :: rest =>
    match getNamedType c n with
    | .error e => .error e
    | .ok namedInterface =>
      match castToInterfaceValue namedInterface with
      | some convertedInterface =>
        forceBaseInterfaces c (acc ++ [convertedInterface]) rest
      | none => forceBaseInterfaces c acc rest

/-- Inner loop of the extension part of `buildInterfacesThunk`
(lines 389-398), over one extension's interface names, with the
`.(*Interface)` pointer assertion. -/
def forceExtInterfacesOne (c : SchemaConfigBuilder) (acc : List GType) :
    List String → Except String (List GType)
  | [] => .ok acc
  | n :: rest =>
    match getNamedType c n with
    | .error e => .error e
    | .ok namedInterface =>
      match castToInterfacePtr namedInterface with
      | some convertedInterface =>
        forceExtInterfacesOne c (acc ++ [convertedInterface]) rest
      | none => forceExtInterfacesOne c acc rest

/-- Outer loop of the extension part of `buildInterfacesThunk`
(lines 388-399). -/
def forceExtInterfaces (c : SchemaConfigBuilder) (acc : List GType) :
    List TypeExtensionDefinition → Except String (List GType)
  | [] => .ok acc
  | en :: rest =>
    match forceExtInterfacesOne c acc en.definition.interfaces with
    | .error e => .error e
    | .ok acc2 => forceExtInterfaces c acc2 rest

/-- Body of the closure returned by `buildInterfacesThunk`
(lines 370-403): base interfaces first, then the interfaces of every
registered extension in registration order. -/
def forceInterfacesThunk (c : SchemaConfigBuilder) (node : ObjectDefinition) :
    Except String (List GType) :=
  match forceBaseInterfaces c [] node.interfaces with
  | .error e => .error e
  | .ok acc =>
    forceExtInterfaces c acc ((lookupA c.typeExtensionsMap node.name).getD [])

/-- `*InputObjectFieldConfig`. -/
structure InputObjectFieldConfig where
  type : GType
  description : String
  defaultValue : Option ASTValue
deriving Repr

/-- Loop body of the closure returned by `buildInputObjectFieldsThunk`
(lines 436-454): the `getWrappedType` error is discarded (`fieldType, _`),
the `fieldType.(Input)` assertion decides membership, and the description
stored for each field is read from the input-object definition `node`
itself. -/
def forceInputObjectFieldsAux (c : SchemaConfigBuilder)
    (node : InputObjectDefinition)
    (inputFieldMap : List (String × InputObjectFieldConfig)) :
    List InputValueDefinition → List (String × InputObjectFieldConfig)
  | [] => inputFieldMap
  | field :: rest =>
    match getWrappedType c field.type with
    | .error _ => forceInputObjectFieldsAux c node inputFieldMap rest
    | .ok fieldType =>
      if isInput fieldType then
        forceInputObjectFieldsAux c node
          (insertA inputFieldMap field.name
            ⟨fieldType, descOf node.description, field.defaultValue⟩) rest
      else
        forceInputObjectFieldsAux c node inputFieldMap rest

/-- Body of the closure returned by `buildInputObjectFieldsThunk`
(lines 435-455). -/
def forceInputObjectFields (c : SchemaConfigBuilder)
    (node : InputObjectDefinition) : List (String × InputObjectFieldConfig) :=
  forceInputObjectFieldsAux c node [] node.fields

/-! ## Deprecation reading (lines 594-634) -/

/-- The dynamic values reaching `getDeprecationReason(def interface{})`:
its only call site (the enum arm of `buildType`, line 268) passes a
`*ast.EnumDefinition`; the struct value `DefinitionWithDirectives` the
function asserts for is listed as its own case. -/
inductive DeprecationArg where
  | enumDefArg (d : EnumDefinition)
  | defWithDirectives (directives : List DirectiveUse)

/-- `getDirectiveValues` (lines 620-634) applied to the deprecated
directive: find the first attached directive named `deprecated`; if found,
hand its AST arguments to the external `getArgumentValues` coercion, whose
result for the `reason` argument is its string literal. -/
def deprecatedReasonOf : List DirectiveUse → Option String
  | [] => none
  | d :: rest =>
    if d.name = "deprecated" then
      match lookupA d.arguments "reason" with
      | some (.stringV s) => some s
      | _ => none
    else deprecatedReasonOf rest

/-- `getDeprecationReason` (lines 598-607): the Go assertion
`def.(DefinitionWithDirectives)` succeeds only when the dynamic value is
the struct value itself; a `*ast.EnumDefinition` (a pointer to a
different struct) never satisfies it, so the call site's branch falls
through to `""`. -/
def getDeprecationReason : DeprecationArg → String
  | .defWithDirectives ds =>
    match deprecatedReasonOf ds with
    | some reason => reason
    | none => ""
  | _ => ""

/-! ## `buildType` (lines 215-344) -/

/-- Member loop of the union arm (lines 284-298): resolve each member name
via the registry and require the `ttype.(*Object)` assertion. -/
def buildUnionMembers (c : SchemaConfigBuilder) (acc : List GType) :
    List String → Except String (List GType)
  | [] => .ok acc
  | nodeTypeName :: rest =>
    match getNamedType c nodeTypeName with
    | .error e => .error e
    | .ok ttype =>
      match castToObjectPtr ttype with
      | some objectType => buildUnionMembers c (acc ++ [objectType]) rest
      | none =>
        .error ("Union type \"" ++ nodeTypeName ++ "\" is not an Object")

/-- Value loop of the enum arm (lines 259-270): the map is keyed by value
name; each config's deprecation reason comes from `getDeprecationReason`
applied to the enum definition node. -/
def buildEnumValues (node : EnumDefinition)
    (enums : List (String × EnumValueConfig)) :
    List EnumValueDefinition → List (String × EnumValueConfig)
  | [] => enums
  | enumValue :: rest =>
    buildEnumValues node
      (insertA enums enumValue.name
        ⟨descOf enumValue.description,
         getDeprecationReason (.enumDefArg node)⟩) rest

/-- `buildType` (lines 215-344).  Object/interface construction stores the
thunks' captured data: the merged base + extension field definitions (the
eager part of `buildFieldsThunk`, lines 405-421, whose unsupported-node
error path is unreachable from these arms) and, for objects, the
definition node captured by `buildInterfacesThunk`.  Non-typedef shapes
hit the trailing `Unexpected type definition node` error. -/
def buildType (c : SchemaConfigBuilder) : Definition → Except String GType
  | .objectDef node =>
    .ok (.object node.name (descOf node.description) node
      (node.fields ++ extensionFieldDefs c node.name))
  | .interfaceDef node =>
    .ok (.interfaceT node.name (descOf node.description)
      (node.fields ++ extensionFieldDefs c node.name))
  | .enumDef node =>
    .ok (.enum node.name (descOf node.description)
      (buildEnumValues node [] node.values))
  | .unionDef node =>
    match buildUnionMembers c [] node.types with
    | .error e => .error e
    | .ok types => .ok (.union node.name (descOf node.description) types)
  | .scalarDef node =>
    .ok (.scalar node.name (descOf node.description))
  | .inputObjectDef node =>
    .ok (.inputObject node.name (descOf node.description) node)
  | _ => .error "Unexpected type definition node"

/-! ## Directives -/

/-- A built `*graphql.Directive` (only the parts the builder writes or
compares: line 201 compares names). -/
structure Directive where
  name : String
  description : String
  locations : List String
  args : List (String × ArgumentConfig)
deriving Repr

/-- `buildDirective` (lines 346-368). -/
def buildDirective (c : SchemaConfigBuilder) (directiveDef : DirectiveDefinition) :
    Except String Directive :=
  match buildArgumentMap c directiveDef.arguments with
  | .error e => .error e
  | .ok argMap =>
    .ok ⟨directiveDef.name, descOf directiveDef.description,
         directiveDef.locations, argMap⟩

/-- Modelled from the spec: the built-in directive definitions
(`SpecifiedDirectives = [IncludeDirective, SkipDirective,
DeprecatedDirective]` and `SpecifiedByDirective`) live in the external
graphql-go library; only their names are read by this repository
(line 201). -/
def includeDirectiveStd : Directive := ⟨"include", "", ["FIELD", "FRAGMENT_SPREAD", "INLINE_FRAGMENT"], []⟩

def skipDirectiveStd : Directive := ⟨"skip", "", ["FIELD", "FRAGMENT_SPREAD", "INLINE_FRAGMENT"], []⟩

def deprecatedDirectiveStd : Directive := ⟨"deprecated", "", ["FIELD_DEFINITION", "ENUM_VALUE"], []⟩

def specifiedByDirectiveStd : Directive := ⟨"specifiedBy", "", ["SCALAR"], []⟩

/-- `append(SpecifiedDirectives, SpecifiedByDirective)` (line 197). -/
def specifiedDirectivesList : List Directive :=
  [includeDirectiveStd, skipDirectiveStd, deprecatedDirectiveStd,
   specifiedByDirectiveStd]

/-- Body of the defaulting loop (lines 198-208): append the built-in
unless a directive of the same name is already in the list. -/
def addSpecifiedStep (ds : List Directive) (specifiedDirective : Directive) :
    List Directive :=
  if ds.any (fun declaredDirective =>
      declaredDirective.name = specifiedDirective.name) then
    ds
  else
    ds ++ [specifiedDirective]

/-- Defaulting loop (lines 198-209): append each built-in whose name is
not already present, checking against the growing directive list. -/
def addSpecifiedDirectives (declared : List Directive) : List Directive :=
  specifiedDirectivesList.foldl addSpecifiedStep declared

/-- Directive-conversion loop (lines 186-193). -/
def buildDirectivesList (c : SchemaConfigBuilder) (acc : List Directive) :
    List DirectiveDefinition → Except String (List Directive)
  | [] => .ok acc
  | d :: rest =>
    match buildDirective c d with
    | .error e => .error e
    | .ok directiveType => buildDirectivesList c (acc ++ [directiveType]) rest

/-! ## Standard type table -/

/-- Modelled from the spec: the pre-built standard type table (§6:
`standardTypes()` = specified scalar types plus the introspection types),
seeded into the registry's standard tier by `BuildAstSchema`
(lines 36-39).  `GetIntrospectionTypes` and `getSpecifiedScalarTypes` are
external graphql-go functions; the spec consumes the table as an opaque
name-to-type map, so the introspection types' own field structure is not
modelled (no claim forces it). -/
def stdTypes : List (String × GType) :=
  [("__Schema", .object "__Schema" "" ⟨"__Schema", none, [], []⟩ []),
   ("__Directive", .object "__Directive" "" ⟨"__Directive", none, [], []⟩ []),
   ("__DirectiveLocation", .enum "__DirectiveLocation" "" []),
   ("__Type", .object "__Type" "" ⟨"__Type", none, [], []⟩ []),
   ("__Field", .object "__Field" "" ⟨"__Field", none, [], []⟩ []),
   ("__InputValue", .object "__InputValue" "" ⟨"__InputValue", none, [], []⟩ []),
   ("__EnumValue", .object "__EnumValue" "" ⟨"__EnumValue", none, [], []⟩ []),
   ("__TypeKind", .enum "__TypeKind" "" []),
   ("Int", .scalar "Int" ""),
   ("Float", .scalar "Float" ""),
   ("String", .scalar "String" ""),
   ("Boolean", .scalar "Boolean" ""),
   ("ID", .scalar "ID" "")]

/-! ## Classification (lines 87-106) -/

/-- The working buckets filled by the classification loop. -/
structure Classified where
  typeDefs : List Definition
  directiveDefs : List DirectiveDefinition
  unionDefs : List UnionDefinition
  schemaDef : Option SchemaDefinition
  typeExtensionsMap : List (String × List TypeExtensionDefinition)
deriving Repr

/-- One step of the classification type switch (lines 88-105). -/
def classifyStep (s : Classified) : Definition → Classified
  | .schemaDef node => { s with schemaDef := some node }
  | .typeExtension node =>
    let extendedTypeName := node.definition.name
    match lookupA s.typeExtensionsMap extendedTypeName with
    | some v =>
      { s with typeExtensionsMap :=
          insertA s.typeExtensionsMap extendedTypeName (v ++ [node]) }
    | none =>
      { s with typeExtensionsMap :=
          insertA s.typeExtensionsMap extendedTypeName [node] }
  | .directiveDef node => { s with directiveDefs := s.directiveDefs ++ [node] }
  | d@(.objectDef _) => { s with typeDefs := s.typeDefs ++ [d] }
  | d@(.interfaceDef _) => { s with typeDefs := s.typeDefs ++ [d] }
  | d@(.enumDef _) => { s with typeDefs := s.typeDefs ++ [d] }
  | d@(.scalarDef _) => { s with typeDefs := s.typeDefs ++ [d] }
  | d@(.inputObjectDef _) => { s with typeDefs := s.typeDefs ++ [d] }
  | .unionDef node => { s with unionDefs := s.unionDefs ++ [node] }
  | .otherDef => s

/-- The classification loop (lines 87-106). -/
def classify (defs : List Definition) : Classified :=
  defs.foldl classifyStep ⟨[], [], [], none, []⟩

/-- `GetName` of the `NamedTypeDefinition` cast (lines 128-129): every
kind the classifier places into `typeDefs` (plus unions, appended later)
carries a name; the remaining kinds never reach the conversion loop. -/
def nameOfTypeDef : Definition → Option String
  | .objectDef d => some d.name
  | .interfaceDef d => some d.name
  | .enumDef d => some d.name
  | .scalarDef d => some d.name
  | .inputObjectDef d => some d.name
  | .unionDef d => some d.name
  | _ => none

/-- Type-conversion loop (lines 127-147): a name found in the standard
tier registers the standard type without building; otherwise the built
type is registered.  The `builtType.(Type)` check (line 140) always
succeeds, `buildType` only returns constructed types. -/
def convertTypeDefs (c : SchemaConfigBuilder) :
    List Definition → Except String SchemaConfigBuilder
  | [] => .ok c
  | typeNode :: rest =>
    match nameOfTypeDef typeNode with
    | none => convertTypeDefs c rest
    | some name =>
      match lookupA c.stdTypeMap name with
      | some stdType =>
        convertTypeDefs { c with typeMap := insertA c.typeMap name stdType } rest
      | none =>
        match buildType c typeNode with
        | .error e => .error e
        | .ok builtType =>
          convertTypeDefs
            { c with typeMap := insertA c.typeMap name builtType } rest

/-! ## Schema assembly -/

/-- `graphql.SchemaConfig`, with Go zero values. -/
structure SchemaConfig where
  query : Option GType := none
  mutation : Option GType := none
  subscription : Option GType := none
  types : List GType := []
  directives : List Directive := []
deriving Repr

/-- `SchemaOperations` (lines 491-495). -/
structure SchemaOperations where
  query : Option GType := none
  mutation : Option GType := none
  subscription : Option GType := none
deriving Repr

/-- Loop over the registry adding each type to `Types` and picking the
conventionally named `Query`/`Mutation` roots when they are `*Object`
(lines 150-165; the subscription convention is explicitly not handled,
line 164).  Go map iteration order is unspecified; the model iterates in
registry insertion order, and no claim relies on the order of `Types`. -/
def addTypesAndRootsAux (cfg : SchemaConfig) :
    List (String × GType) → SchemaConfig
  | [] => cfg
  | (name, ttype) :: rest =>
    let cfg := { cfg with types := cfg.types ++ [ttype] }
    let cfg :=
      if name = "Query" then
        match castToObjectPtr ttype with
        | some objectType => { cfg with query := some objectType }
        | none => cfg
      else if name = "Mutation" then
        match castToObjectPtr ttype with
        | some objectType => { cfg with mutation := some objectType }
        | none => cfg
      else cfg
    addTypesAndRootsAux cfg rest

def addTypesAndRoots (schemaConfig : SchemaConfig)
    (typeMap : List (String × GType)) : SchemaConfig :=
  addTypesAndRootsAux { schemaConfig with types := [] } typeMap

/-- Loop of `getSchemaOperationTypes` (lines 497-519): resolve each
declared operation type name (failure aborts); assign it to the matching
operation slot only when the `ttype.(*Object)` assertion succeeds. -/
def schemaOperationTypesAux (c : SchemaConfigBuilder) (ops : SchemaOperations) :
    List OperationTypeDefinition → Except String SchemaOperations
  | [] => .ok ops
  | operationType :: rest =>
    match getNamedType c operationType.typeName with
    | .error e => .error e
    | .ok ttype =>
      match castToObjectPtr ttype with
      | some objectType =>
        if operationType.operation = "query" then
          schemaOperationTypesAux c { ops with query := some objectType } rest
        else if operationType.operation = "mutation" then
          schemaOperationTypesAux c { ops with mutation := some objectType } rest
        else if operationType.operation = "subscription" then
          schemaOperationTypesAux c { ops with subscription := some objectType } rest
        else
          schemaOperationTypesAux c ops rest
      | none => schemaOperationTypesAux c ops rest

/-- `getSchemaOperationTypes` (lines 497-519). -/
def getSchemaOperationTypes (c : SchemaConfigBuilder) (node : SchemaDefinition) :
    Except String SchemaOperations :=
  schemaOperationTypesAux c ⟨none, none, none⟩ node.operationTypes

/-- Override step (lines 168-182): each operation slot the schema block
filled replaces the conventional pick. -/
def applySchemaOperations (schemaConfig : SchemaConfig)
    (ops : SchemaOperations) : SchemaConfig :=
  let schemaConfig :=
    match ops.query with
    | some q => { schemaConfig with query := some q }
    | none => schemaConfig
  let schemaConfig :=
    match ops.mutation with
    | some m => { schemaConfig with mutation := some m }
    | none => schemaConfig
  match ops.subscription with
  | some s => { schemaConfig with subscription := some s }
  | none => schemaConfig

/-- The builder state right after the type-conversion loop (line 148),
starting from the fresh builder of `BuildAstSchema` (lines 41-45) with
the classification's extension map: the state every thunk sees when it
is forced. -/
def builderAfterTypes (cls : Classified) : Except String SchemaConfigBuilder :=
  convertTypeDefs
    ⟨cls.typeExtensionsMap, [], stdTypes⟩
    (cls.typeDefs ++ cls.unionDefs.map Definition.unionDef)

/-- `buildSchemaConfig` (lines 78-212): classify; return the zero-value
config for a document with no types, extensions, directives or schema
block (lines 108-110, checked before unions are appended); convert all
type definitions with unions last (lines 122-147); collect types and
conventional roots; apply a schema block's operation types; build the
declared directives and append the missing built-ins. -/
def buildSchemaConfig (documentAST : Document) : Except String SchemaConfig :=
  let cls := classify documentAST.definitions
  if cls.typeDefs.isEmpty && cls.typeExtensionsMap.isEmpty &&
      cls.directiveDefs.isEmpty && cls.schemaDef.isNone then
    .ok {}
  else
    match builderAfterTypes cls with
    | .error e => .error e
    | .ok c =>
      let schemaConfig := addTypesAndRoots {} c.typeMap
      let afterSchemaDef : Except String SchemaConfig :=
        match cls.schemaDef with
        | none => .ok schemaConfig
        | some schemaDef =>
          match getSchemaOperationTypes c schemaDef with
          | .error e => .error e
          | .ok ops => .ok (applySchemaOperations schemaConfig ops)
      match afterSchemaDef with
      | .error e => .error e
      | .ok schemaConfig =>
        match buildDirectivesList c [] cls.directiveDefs with
        | .error e => .error e
        | .ok declared =>
          .ok { schemaConfig with directives := addSpecifiedDirectives declared }

/-- Modelled from the spec: the external schema-construction routine
(graphql-go `NewSchema`, called at line 53) performs global validation —
in particular it rejects a missing query root (§6) — and returns the
final schema carrying the config's roots, types and directives. -/
structure Schema where
  query : GType
  mutation : Option GType
  subscription : Option GType
  types : List GType
  directives : List Directive
deriving Repr

/-- Modelled from the spec: `NewSchema` (external), §6 — global
validation rejecting a missing query root. -/
def newSchema (config : SchemaConfig) : Except String Schema :=
  match config.query with
  | none => .error "Schema query must be Object Type but got: nil."
  | some q =>
    .ok ⟨q, config.mutation, config.subscription, config.types,
         config.directives⟩

/-- `BuildAstSchema` (lines 31-60) on a well-formed document: seed the
standard types, build the schema config, hand it to the external
schema constructor. -/
def buildAstSchema (documentNode : Document) : Except String Schema :=
  match buildSchemaConfig documentNode with
  | .error e => .error e
  | .ok config => newSchema config

/-! ## Observers and claim-side formulas -/

/-- The field definitions captured by a constructed object or interface
type's fields thunk. -/
def fieldDefsOfGType : GType → List FieldDefinition
  | .object _ _ _ fieldDefs => fieldDefs
  | .interfaceT _ _ fieldDefs => fieldDefs
  | _ => []

/-- The definition node captured by a constructed object type's
interfaces thunk. -/
def nodeOfObject : GType → Option ObjectDefinition
  | .object _ _ node _ => some node
  | _ => none

/-- A nesting of `List`/`NonNull` wrappers, outermost first. -/
inductive Wrap where
  | wlist
  | wnonNull
deriving DecidableEq, Repr

/-- Apply a wrapper nesting to an AST type reference. -/
def applyWraps : List Wrap → ASTType → ASTType
  | [], t => t
  | .wlist :: ws, t => .list (applyWraps ws t)
  | .wnonNull :: ws, t => .nonNull (applyWraps ws t)

/-- Apply the same wrapper nesting to a constructed type. -/
def applyWrapsGT : List Wrap → GType → GType
  | [], t => t
  | .wlist :: ws, t => .listT (applyWrapsGT ws t)
  | .wnonNull :: ws, t => .nonNull (applyWrapsGT ws t)

/-- The type name the schema block declares for operation `op`, if any
(first matching entry). -/
def findOperation (op : String) : List OperationTypeDefinition → Option String
  | [] => none
  | e :: rest => if e.operation = op then some e.typeName else findOperation op rest

/-- Claim-side formula: the root operation-type entries contribute for
operation `op`, falling back to `dflt` when `op` is undeclared, its name
resolves to a non-Object, or resolution fails. -/
def opRootFormula (c : SchemaConfigBuilder) (l : List OperationTypeDefinition)
    (op : String) (dflt : Option GType) : Option GType :=
  match findOperation op l with
  | none => dflt
  | some tn =>
    match getNamedType c tn with
    | .ok t =>
      match castToObjectPtr t with
      | some o => some o
      | none => dflt
    | .error _ => dflt

/-- Claim-side formula: the root the schema block contributes for
operation `op` — its declared type name resolved via the registry, kept
only when it is an Object. -/
def declaredRoot (c : SchemaConfigBuilder) (sd : SchemaDefinition)
    (op : String) : Option GType :=
  opRootFormula c sd.operationTypes op none

/-- Claim-side formula: the conventional root — the registry entry with
the conventional name, kept only when it is an Object. -/
def conventionalRoot (c : SchemaConfigBuilder) (name : String) : Option GType :=
  match lookupA c.typeMap name with
  | some t => castToObjectPtr t
  | none => none

/-- Claim-side formula: the built-in directives whose names the declared
list does not contain. -/
def missingSpecified (declared : List Directive) : List Directive :=
  specifiedDirectivesList.filter
    (fun sd => !(declared.any (fun d => d.name = sd.name)))

/-- Claim-side formula, following the spec's words (§3): the semantic
Input capability — "Scalar/Enum/InputObject, not Object/Interface/Union",
with wrappers inheriting the wrapped type's capability.  This is the
notion the claim's "satisfy the Input capability" refers to; the
program's `.(Input)` assertion is `isInput`, a different (structural)
test. -/
def isInputCapability : GType → Bool
  | .scalar _ _ => true
  | .enum _ _ _ => true
  | .inputObject _ _ _ => true
  | .listT t => isInputCapability t
  | .nonNull t => isInputCapability t
  | _ => false

/-! ## Concrete documents used by counterexamples and witnesses -/

/-- Definition of an object type `a` whose field `otherType` references
type `b`. -/
def crossNodeA (a b : String) : ObjectDefinition :=
  ⟨a, none, [],
   [⟨"str", none, .named "String", []⟩,
    ⟨"otherType", none, .named b, []⟩]⟩

/-- Definition of an object type `b` whose field `queryType` references
type `a` back. -/
def crossNodeB (a b : String) : ObjectDefinition :=
  ⟨b, none, [],
   [⟨"str", none, .named "String", []⟩,
    ⟨"queryType", none, .named a, []⟩]⟩

/-- Two object types referencing each other through their fields
(`a.otherType: b`, `b.queryType: a`), as in the spec's mutual-reference
test. -/
def crossDoc (a b : String) : Document :=
  ⟨[.objectDef (crossNodeA a b), .objectDef (crossNodeB a b)]⟩

/-- The constructed type the build registers for `a` in `crossDoc a b`. -/
def crossTypeA (a b : String) : GType :=
  .object a "" (crossNodeA a b) (crossNodeA a b).fields

/-- The constructed type the build registers for `b` in `crossDoc a b`. -/
def crossTypeB (a b : String) : GType :=
  .object b "" (crossNodeB a b) (crossNodeB a b).fields

/-- The builder state after converting `crossDoc a b` (for names outside
the standard tier). -/
def crossBuilder (a b : String) : SchemaConfigBuilder :=
  ⟨[], [(a, crossTypeA a b), (b, crossTypeB a b)], stdTypes⟩

/-- The object definition used as a union member. -/
def unionMemberNode (m : String) : ObjectDefinition :=
  ⟨m, none, [], [⟨"str", none, .named "String", []⟩]⟩

/-- The constructed type registered for the union member. -/
def unionMemberType (m : String) : GType :=
  .object m "" (unionMemberNode m) (unionMemberNode m).fields

/-- A union whose single member type is defined after it. -/
def unionForwardDoc (u m : String) : Document :=
  ⟨[.unionDef ⟨u, none, [m]⟩, .objectDef (unionMemberNode m)]⟩

/-- A union whose single member resolves to an interface. -/
def unionInterfaceDoc (u i : String) : Document :=
  ⟨[.unionDef ⟨u, none, [i]⟩,
    .interfaceDef ⟨i, none, [⟨"str", none, .named "String", []⟩]⟩]⟩

/-- A schema block declaring only `query`, alongside a convention-named
`Subscription` object type. -/
def subscriptionFallbackDoc : Document :=
  ⟨[.schemaDef ⟨[⟨"query", "QRoot"⟩]⟩,
    .objectDef ⟨"QRoot", none, [], [⟨"str", none, .named "String", []⟩]⟩,
    .objectDef ⟨"Subscription", none, [],
      [⟨"str", none, .named "String", []⟩]⟩]⟩

/-- A document redeclaring the standard scalar `ID`. -/
def idRedeclarationDoc : Document :=
  ⟨[.scalarDef ⟨"ID", none⟩,
    .objectDef ⟨"Query", none, [], [⟨"str", none, .named "String", []⟩]⟩]⟩

/-- The same document without the `ID` redeclaration. -/
def noRedeclarationDoc : Document :=
  ⟨[.objectDef ⟨"Query", none, [], [⟨"str", none, .named "String", []⟩]⟩]⟩

/-- Base object `X implements Foo { g }`, one extension
`extend type X implements Bar { f }`, both interfaces defined, plus a
query root (the shape of the repo's extension and base-interface tests). -/
def extensionDoc : Document :=
  ⟨[.objectDef ⟨"X", none, ["Foo"], [⟨"g", none, .named "String", []⟩]⟩,
    .typeExtension ⟨⟨"X", none, ["Bar"], [⟨"f", none, .named "Int", []⟩]⟩⟩,
    .interfaceDef ⟨"Foo", none, [⟨"g", none, .named "String", []⟩]⟩,
    .interfaceDef ⟨"Bar", none, [⟨"f", none, .named "Int", []⟩]⟩,
    .objectDef ⟨"Query", none, [], [⟨"x", none, .named "X", []⟩]⟩]⟩

/-- The base definition node of `X` in `extensionDoc` (what the
interfaces thunk captures). -/
def xNode : ObjectDefinition :=
  ⟨"X", none, ["Foo"], [⟨"g", none, .named "String", []⟩]⟩

/-- An enum definition carrying `@deprecated(reason: "Use other")` on the
definition itself. -/
def deprecatedEnumDef : EnumDefinition :=
  ⟨"Hello", none, [⟨"WORLD", none⟩],
   [⟨"deprecated", [("reason", .stringV "Use other")]⟩]⟩

/-- A document explicitly redeclaring the built-in `skip` directive and
declaring a directive of its own. -/
def skipRedeclarationDoc : Document :=
  ⟨[.directiveDef ⟨"foo", none, ["FIELD"], [⟨"arg", none, .named "Int", none⟩]⟩,
    .directiveDef ⟨"skip", none, ["FIELD"], []⟩,
    .objectDef ⟨"Query", none, [], [⟨"str", none, .named "String", []⟩]⟩]⟩

/-- A builder whose user tier holds one object type, for exercising the
drop-on-non-Input policy. -/
def objOnlyBuilder : SchemaConfigBuilder :=
  ⟨[], [("Obj", .object "Obj" "" ⟨"Obj", none, [], []⟩ [])], stdTypes⟩

/-- An input-object definition with a container description and one
field carrying its own (ignored) description. -/
def containerInputDef : InputObjectDefinition :=
  ⟨"In", some "container desc",
   [⟨"f", some "field desc", .named "Int", none⟩]⟩

/-! ## Helper lemmas -/

theorem lookupA_nil {α : Type} (key : String) :
    lookupA ([] : List (String × α)) key = none := rfl

theorem lookupA_cons {α : Type} (k : String) (v : α)
    (rest : List (String × α)) (key : String) :
    lookupA ((k, v) :: rest) key =
      if k = key then some v else lookupA rest key := rfl

theorem insertA_nil {α : Type} (key : String) (v : α) :
    insertA ([] : List (String × α)) key v = [(key, v)] := rfl

theorem insertA_cons {α : Type} (k : String) (w : α)
    (rest : List (String × α)) (key : String) (v : α) :
    insertA ((k, w) :: rest) key v =
      if k = key then (k, v) :: rest else (k, w) :: insertA rest key v := rfl

theorem lookupA_insertA {α : Type} (m : List (String × α)) (k x : String) (v : α) :
    lookupA (insertA m k v) x = if k = x then some v else lookupA m x := by
  induction m with
  | nil => simp [insertA, lookupA]
  | cons hd tl ih =>
    obtain ⟨k0, v0⟩ := hd
    by_cases h : k0 = k
    · subst h
      by_cases h2 : k0 = x
      · simp [insertA, lookupA, h2]
      · simp [insertA, lookupA, h2]
    · by_cases h2 : k0 = x
      · subst h2
        have h3 : ¬ k = k0 := fun hk => h hk.symm
        simp [insertA, h, lookupA, h3]
      · simp [insertA, h, lookupA, h2, ih]

/-- When the classifier found type definitions, the builder conversion
succeeded, there is no schema block and the declared directives build,
`buildSchemaConfig` returns the assembled config. -/
theorem buildSchemaConfig_ok_of (doc : Document) (c : SchemaConfigBuilder)
    (us : List Directive)
    (hty : (classify doc.definitions).typeDefs.isEmpty = false)
    (hb : builderAfterTypes (classify doc.definitions) = .ok c)
    (hsd : (classify doc.definitions).schemaDef = none)
    (hd : buildDirectivesList c [] (classify doc.definitions).directiveDefs = .ok us) :
    buildSchemaConfig doc =
      .ok { addTypesAndRoots {} c.typeMap with
            directives := addSpecifiedDirectives us } := by
  simp only [buildSchemaConfig, hty, hb, hsd, hd, Bool.false_and,
    Bool.false_eq_true, if_false]

/-- When the classifier found type definitions and the conversion loop
fails, `buildSchemaConfig` propagates the failure (no partial config). -/
theorem buildSchemaConfig_error_of (doc : Document) (e : String)
    (hty : (classify doc.definitions).typeDefs.isEmpty = false)
    (hb : builderAfterTypes (classify doc.definitions) = .error e) :
    buildSchemaConfig doc = .error e := by
  simp only [buildSchemaConfig, hty, hb, Bool.false_and, Bool.false_eq_true,
    if_false]

/-! ## C5: wrapped-type resolution preserves nesting structure -/

/-- C5.  For every AST type reference built from nested List/NonNull
wrappers around a named type: if the inner name resolves, the wrapped
resolver returns exactly the same nesting applied to the resolved type
(structure and depth preserved); if the inner name is unknown, resolution
fails with that error; and a reference that is not a List, NonNull, or
Named shape fails at any nesting depth. -/
theorem wrapped_type_preserves_nesting :
    (∀ (c : SchemaConfigBuilder) (ws : List Wrap) (n : String) (t : GType),
      getNamedType c n = .ok t →
      getWrappedType c (applyWraps ws (.named n)) = .ok (applyWrapsGT ws t)) ∧
    (∀ (c : SchemaConfigBuilder) (ws : List Wrap) (n : String) (e : String),
      getNamedType c n = .error e →
      getWrappedType c (applyWraps ws (.named n)) = .error e) ∧
    (∀ (c : SchemaConfigBuilder) (ws : List Wrap),
      getWrappedType c (applyWraps ws .other) =
        .error "buildWrappedType received an ast.Type that was not a List, NonNull, or Named") := by
  refine ⟨?_, ?_, ?_⟩
  · intro c ws n t h
    induction ws with
    | nil => simpa [applyWraps, applyWrapsGT, getWrappedType] using h
    | cons w ws ih =>
      cases w <;> simp [applyWraps, applyWrapsGT, getWrappedType, ih]
  · intro c ws n e h
    induction ws with
    | nil => simpa [applyWraps, getWrappedType] using h
    | cons w ws ih =>
      cases w <;> simp [applyWraps, getWrappedType, ih]
  · intro c ws
    induction ws with
    | nil => simp [applyWraps, getWrappedType]
    | cons w ws ih =>
      cases w <;> simp [applyWraps, getWrappedType, ih]

/-- C5 witness: `[String!]!` resolves to
`NonNull(List(NonNull(Scalar("String"))))` with the standard scalar at the
innermost position. -/
theorem wrapped_type_preserves_nesting_witness :
    getNamedType ⟨[], [], stdTypes⟩ "String" = .ok (.scalar "String" "") ∧
    getWrappedType ⟨[], [], stdTypes⟩
        (.nonNull (.list (.nonNull (.named "String")))) =
      .ok (.nonNull (.listT (.nonNull (.scalar "String" "")))) :=
  ⟨rfl,
   wrapped_type_preserves_nesting.1 ⟨[], [], stdTypes⟩
     [.wnonNull, .wlist, .wnonNull] "String" (.scalar "String" "") rfl⟩

/-! ## C7: enum deprecation reason -/

/-- C7.  The enum arm of `buildType` passes the `*ast.EnumDefinition` to
`getDeprecationReason`, whose `def.(DefinitionWithDirectives)` assertion
never succeeds for that pointer type: even though the enum definition
carries `@deprecated(reason: "Use other")` — and the directive lookup
itself would find that reason — every built enum value's deprecation
reason is `""`, not the attached reason. -/
theorem enum_deprecation_reason_always_empty :
    deprecatedReasonOf deprecatedEnumDef.directives = some "Use other" ∧
    getDeprecationReason (.enumDefArg deprecatedEnumDef) = "" ∧
    buildType ⟨[], [], stdTypes⟩ (.enumDef deprecatedEnumDef) =
      .ok (.enum "Hello" "" [("WORLD", ⟨"", ""⟩)]) :=
  ⟨rfl, rfl, rfl⟩

/-! ## C6: extension merging and base interfaces -/

/-- C6.  On `extensionDoc` the build registers `X` with field thunk data
`[g, f]` (base field first, extension field appended) and forcing the
field thunk yields both fields — but forcing the interfaces thunk yields
only the extension's `Bar`: the base `Foo`, although declared on the
definition and registered as an interface, is dropped because the
`namedInterface.(Interface)` value-type assertion never matches the
pointer the registry stores. -/
theorem extension_merge_fields_but_base_interface_dropped :
    (builderAfterTypes (classify extensionDoc.definitions)).map (fun c =>
      ((lookupA c.typeMap "X").map (fun x => (fieldDefsOfGType x).map FieldDefinition.name),
       (lookupA c.typeMap "X").map (fun x =>
         (forceFieldsThunk c (fieldDefsOfGType x)).map (fun fs => fs.map Prod.fst)),
       (getNamedType c "Foo").map nameOfGType,
       (forceInterfacesThunk c xNode).map (fun is => is.map nameOfGType)))
    = .ok (some ["g", "f"], some (.ok ["g", "f"]), .ok "Foo", .ok ["Bar"]) := by
  rfl

/-! ## C10: input-object field descriptions -/

theorem forceInputObjectFieldsAux_description (c : SchemaConfigBuilder)
    (node : InputObjectDefinition) :
    ∀ (fields : List InputValueDefinition)
      (acc : List (String × InputObjectFieldConfig)),
    (∀ x cfg, lookupA acc x = some cfg →
        cfg.description = descOf node.description) →
    ∀ x cfg, lookupA (forceInputObjectFieldsAux c node acc fields) x = some cfg →
      cfg.description = descOf node.description := by
  intro fields
  induction fields with
  | nil =>
    intro acc hacc x cfg h
    exact hacc x cfg h
  | cons f rest ih =>
    intro acc hacc x cfg h
    cases hw : getWrappedType c f.type with
    | error e =>
      simp only [forceInputObjectFieldsAux, hw] at h
      exact ih acc hacc x cfg h
    | ok t =>
      simp only [forceInputObjectFieldsAux, hw, isInput, if_true] at h
      refine ih _ ?_ x cfg h
      intro y cfg2 hy
      rw [lookupA_insertA] at hy
      by_cases he : f.name = y
      · rw [if_pos he] at hy
        cases hy
        rfl
      · rw [if_neg he] at hy
        exact hacc y cfg2 hy

/-- C10.  Every field in a built input-object field map carries the
input-object definition's own description; the per-field description in
the AST is never read. -/
theorem input_object_field_description_from_container :
    ∀ (c : SchemaConfigBuilder) (node : InputObjectDefinition) (x : String)
      (cfg : InputObjectFieldConfig),
      lookupA (forceInputObjectFields c node) x = some cfg →
      cfg.description = descOf node.description := by
  intro c node x cfg h
  refine forceInputObjectFieldsAux_description c node node.fields [] ?_ x cfg h
  intro y cfg2 hy
  simp [lookupA] at hy

/-- C10 witness: on `containerInputDef`, field `f` carries the container
description `"container desc"`, not its own `"field desc"`. -/
theorem input_object_field_description_witness :
    lookupA (forceInputObjectFields ⟨[], [], stdTypes⟩ containerInputDef) "f" =
      some ⟨.scalar "Int" "", "container desc", none⟩ ∧
    (⟨.scalar "Int" "", "container desc", none⟩ :
        InputObjectFieldConfig).description = "container desc" :=
  ⟨rfl,
   input_object_field_description_from_container ⟨[], [], stdTypes⟩
     containerInputDef "f" ⟨.scalar "Int" "", "container desc", none⟩ rfl⟩

/-! ## C9: resolved entries and the Input assertion -/

theorem buildArgumentMapAux_keeps (c : SchemaConfigBuilder) :
    ∀ (args : List InputValueDefinition) (acc : List (String × ArgumentConfig)),
    (∀ a ∈ args, ∃ t, getWrappedType c a.type = .ok t) →
    ∃ m, buildArgumentMapAux c acc args = .ok m ∧
      (∀ a ∈ args, ∃ e, lookupA m a.name = some e) ∧
      (∀ x e, lookupA acc x = some e → ∃ e2, lookupA m x = some e2) := by
  intro args
  induction args with
  | nil =>
    intro acc _
    exact ⟨acc, rfl, fun a ha => absurd ha (List.not_mem_nil a),
      fun x e he => ⟨e, he⟩⟩
  | cons a rest ih =>
    intro acc hres
    obtain ⟨t, ht⟩ := hres a (List.mem_cons_self a rest)
    obtain ⟨m, hm, hall, hpres⟩ :=
      ih (insertA acc a.name ⟨t, descOf a.description, a.defaultValue⟩)
        (fun a2 h2 => hres a2 (List.mem_cons_of_mem a h2))
    refine ⟨m, ?_, ?_, ?_⟩
    · simp only [buildArgumentMapAux, ht, isInput, if_true]
      exact hm
    · intro a2 ha2
      rcases List.mem_cons.mp ha2 with rfl | ha2
      · exact hpres a2.name _ (by rw [lookupA_insertA, if_pos rfl])
      · exact hall a2 ha2
    · intro x e he
      by_cases hx : a.name = x
      · exact hpres x _ (by rw [lookupA_insertA, if_pos hx])
      · exact hpres x e (by rw [lookupA_insertA, if_neg hx]; exact he)

theorem forceInputObjectFieldsAux_resolved (c : SchemaConfigBuilder)
    (node : InputObjectDefinition) :
    ∀ (fields : List InputValueDefinition)
      (acc : List (String × InputObjectFieldConfig)),
      (∀ x e, lookupA acc x = some e →
        ∃ e2, lookupA (forceInputObjectFieldsAux c node acc fields) x = some e2) ∧
      (∀ f ∈ fields, (∃ t, getWrappedType c f.type = .ok t) →
        ∃ e, lookupA (forceInputObjectFieldsAux c node acc fields) f.name = some e) ∧
      (∀ x, (∀ f ∈ fields, f.name = x →
          ∃ err, getWrappedType c f.type = .error err) →
        lookupA (forceInputObjectFieldsAux c node acc fields) x = lookupA acc x) := by
  intro fields
  induction fields with
  | nil =>
    intro acc
    exact ⟨fun x e he => ⟨e, he⟩, fun f hf => absurd hf (List.not_mem_nil f),
      fun x _ => rfl⟩
  | cons f rest ih =>
    intro acc
    cases hw : getWrappedType c f.type with
    | error err =>
      have hstep : forceInputObjectFieldsAux c node acc (f :: rest) =
          forceInputObjectFieldsAux c node acc rest := by
        simp [forceInputObjectFieldsAux, hw]
      refine ⟨?_, ?_, ?_⟩
      · intro x e2 he
        rw [hstep]
        exact (ih acc).1 x e2 he
      · intro f2 hf2 hres
        rw [hstep]
        rcases List.mem_cons.mp hf2 with rfl | hf2
        · obtain ⟨t, ht⟩ := hres
          rw [hw] at ht
          exact absurd ht (by simp)
        · exact (ih acc).2.1 f2 hf2 hres
      · intro x hx
        rw [hstep]
        exact (ih acc).2.2 x (fun f2 h2 he => hx f2 (List.mem_cons_of_mem f h2) he)
    | ok t =>
      have hstep : forceInputObjectFieldsAux c node acc (f :: rest) =
          forceInputObjectFieldsAux c node
            (insertA acc f.name ⟨t, descOf node.description, f.defaultValue⟩)
            rest := by
        simp [forceInputObjectFieldsAux, hw, isInput]
      refine ⟨?_, ?_, ?_⟩
      · intro x e2 he
        rw [hstep]
        by_cases hx : f.name = x
        · exact (ih _).1 x _ (by rw [lookupA_insertA, if_pos hx])
        · exact (ih _).1 x e2 (by rw [lookupA_insertA, if_neg hx]; exact he)
      · intro f2 hf2 _
        rw [hstep]
        rcases List.mem_cons.mp hf2 with rfl | hf2
        · exact (ih _).1 f2.name _ (by rw [lookupA_insertA, if_pos rfl])
        · exact (ih _).2.1 f2 hf2 (by
            obtain ⟨t2, ht2⟩ := ‹∃ t2, getWrappedType c f2.type = .ok t2›
            exact ⟨t2, ht2⟩)
      · intro x hx
        rw [hstep]
        have hne : ¬ f.name = x := by
          intro he
          obtain ⟨err, herr⟩ := hx f (List.mem_cons_self f rest) he
          rw [hw] at herr
          exact Except.noConfusion herr
        rw [(ih _).2.2 x (fun f2 h2 he => hx f2 (List.mem_cons_of_mem f h2) he)]
        rw [lookupA_insertA, if_neg hne]

/-- C9 counterexample: the argument `a: Obj` (and likewise the
input-object field `a: Obj`) resolves to the registered Object type —
which does not satisfy the spec's semantic Input capability — yet it is
NOT omitted from the resulting map: the structural `.(Input)` assertion
succeeds for every resolved type, so the entry is kept. -/
theorem object_typed_argument_not_omitted_cex :
    getWrappedType objOnlyBuilder (.named "Obj") =
      .ok (.object "Obj" "" ⟨"Obj", none, [], []⟩ []) ∧
    isInputCapability (.object "Obj" "" ⟨"Obj", none, [], []⟩ []) = false ∧
    buildArgumentMap objOnlyBuilder [⟨"a", none, .named "Obj", none⟩] =
      .ok [("a", ⟨.object "Obj" "" ⟨"Obj", none, [], []⟩ [], "", none⟩)] ∧
    forceInputObjectFields objOnlyBuilder
        ⟨"In", none, [⟨"a", none, .named "Obj", none⟩]⟩ =
      [("a", ⟨.object "Obj" "" ⟨"Obj", none, [], []⟩ [], "", none⟩)] :=
  ⟨rfl, rfl, rfl, rfl⟩

/-- C9 amended.  An argument or input-object field whose type reference
resolves successfully is never omitted for its type: graphql-go's
`Input` is a structural interface every constructed type satisfies, so
the `.(Input)` assertions at lines 440 and 547 always succeed and every
resolving entry appears in the resulting map, without failing the build.
The only silent omission is an input-object field whose type reference
fails to resolve — its error is discarded and the nil result fails the
assertion (an unresolvable argument type instead aborts the argument
map). -/
theorem resolved_entries_never_omitted :
    (∀ (c : SchemaConfigBuilder) (args : List InputValueDefinition),
      (∀ a ∈ args, ∃ t, getWrappedType c a.type = .ok t) →
      ∃ m, buildArgumentMap c args = .ok m ∧
        ∀ a ∈ args, ∃ e, lookupA m a.name = some e) ∧
    (∀ (c : SchemaConfigBuilder) (node : InputObjectDefinition),
      (∀ f ∈ node.fields, (∃ t, getWrappedType c f.type = .ok t) →
        ∃ e, lookupA (forceInputObjectFields c node) f.name = some e) ∧
      (∀ x, (∀ f ∈ node.fields, f.name = x →
          ∃ err, getWrappedType c f.type = .error err) →
        lookupA (forceInputObjectFields c node) x = none)) := by
  constructor
  · intro c args hres
    obtain ⟨m, hm, hall, _⟩ := buildArgumentMapAux_keeps c args [] hres
    exact ⟨m, hm, hall⟩
  · intro c node
    refine ⟨(forceInputObjectFieldsAux_resolved c node node.fields []).2.1, ?_⟩
    intro x hx
    exact (forceInputObjectFieldsAux_resolved c node node.fields []).2.2 x hx

/-- C9 amended witness: the arguments `(a: Obj, b: Int)` both resolve
and both are kept in the argument map; an input-object field with an
unknown type is silently dropped. -/
theorem resolved_entries_never_omitted_witness :
    (∃ m, buildArgumentMap objOnlyBuilder
        [⟨"a", none, .named "Obj", none⟩, ⟨"b", none, .named "Int", none⟩] =
        .ok m ∧ (∃ e, lookupA m "a" = some e) ∧ (∃ e, lookupA m "b" = some e)) ∧
    lookupA (forceInputObjectFields objOnlyBuilder
        ⟨"In", none, [⟨"g", none, .named "Missing", none⟩]⟩) "g" = none := by
  constructor
  · obtain ⟨m, hm, hall⟩ := resolved_entries_never_omitted.1 objOnlyBuilder
      [⟨"a", none, .named "Obj", none⟩, ⟨"b", none, .named "Int", none⟩]
      (by
        intro a ha
        simp only [List.mem_cons, List.not_mem_nil, or_false] at ha
        rcases ha with rfl | rfl
        · exact ⟨.object "Obj" "" ⟨"Obj", none, [], []⟩ [], rfl⟩
        · exact ⟨.scalar "Int" "", rfl⟩)
    exact ⟨m, hm,
      hall ⟨"a", none, .named "Obj", none⟩ (List.mem_cons_self _ _),
      hall ⟨"b", none, .named "Int", none⟩
        (List.mem_cons_of_mem _ (List.mem_cons_self _ _))⟩
  · refine (resolved_entries_never_omitted.2 objOnlyBuilder
      ⟨"In", none, [⟨"g", none, .named "Missing", none⟩]⟩).2 "g" ?_
    intro f hf _
    simp only [List.mem_cons, List.not_mem_nil, or_false] at hf
    subst hf
    exact ⟨"Unknown type: \"Missing\"", rfl⟩

/-! ## C1: mutually referencing types -/

/-- C1.  For any two distinct non-standard names `a`, `b`, the document in
which the two object types reference each other through their fields
builds successfully (the terminating conversion loop only stores thunk
data, so there is no infinite recursion), and forcing each registered
type's field thunk yields a field whose named type is exactly the
constructed type object stored in the registry for the other name. -/
theorem cross_reference_fields_resolve_to_registry_objects :
    ∀ (a b : String),
      lookupA stdTypes a = none → lookupA stdTypes b = none → a ≠ b →
      ∃ c, builderAfterTypes (classify (crossDoc a b).definitions) = .ok c ∧
        ∃ tA tB,
          lookupA c.typeMap a = some tA ∧
          lookupA c.typeMap b = some tB ∧
          (∃ m, forceFieldsThunk c (fieldDefsOfGType tA) = .ok m ∧
            ∃ f, lookupA m "otherType" = some f ∧ f.type = tB) ∧
          (∃ m, forceFieldsThunk c (fieldDefsOfGType tB) = .ok m ∧
            ∃ f, lookupA m "queryType" = some f ∧ f.type = tA) ∧
          (∃ cfg, buildSchemaConfig (crossDoc a b) = .ok cfg) := by
  intro a b h1 h2 hne
  have hS : lookupA stdTypes "String" = some (.scalar "String" "") := rfl
  have hb : builderAfterTypes (classify (crossDoc a b).definitions) =
      .ok (crossBuilder a b) := by
    simp [builderAfterTypes, classify, classifyStep, crossDoc, crossBuilder,
      crossNodeA, crossNodeB, crossTypeA, crossTypeB, convertTypeDefs,
      nameOfTypeDef, buildType, extensionFieldDefs, descOf, lookupA_nil,
      lookupA_cons, insertA_nil, insertA_cons, h1, h2, hne]
  have hlA : lookupA (crossBuilder a b).typeMap a = some (crossTypeA a b) := by
    simp [crossBuilder, lookupA_cons]
  have hlB : lookupA (crossBuilder a b).typeMap b = some (crossTypeB a b) := by
    simp [crossBuilder, lookupA_cons, hne]
  have hfA : forceFieldsThunk (crossBuilder a b) (fieldDefsOfGType (crossTypeA a b)) =
      .ok [("str", ⟨"str", "", [], .scalar "String" ""⟩),
           ("otherType", ⟨"otherType", "", [], crossTypeB a b⟩)] := by
    simp [forceFieldsThunk, buildFieldMap, buildFieldMapAux, fieldDefsOfGType,
      crossBuilder, crossNodeA, crossNodeB, crossTypeA, crossTypeB,
      getWrappedType, getNamedType, getNamed, isOutput, buildArgumentMap,
      buildArgumentMapAux, descOf, lookupA_nil, lookupA_cons, insertA_nil,
      insertA_cons, hS, h2, hne]
  have hfB : forceFieldsThunk (crossBuilder a b) (fieldDefsOfGType (crossTypeB a b)) =
      .ok [("str", ⟨"str", "", [], .scalar "String" ""⟩),
           ("queryType", ⟨"queryType", "", [], crossTypeA a b⟩)] := by
    simp [forceFieldsThunk, buildFieldMap, buildFieldMapAux, fieldDefsOfGType,
      crossBuilder, crossNodeA, crossNodeB, crossTypeA, crossTypeB,
      getWrappedType, getNamedType, getNamed, isOutput, buildArgumentMap,
      buildArgumentMapAux, descOf, lookupA_nil, lookupA_cons, insertA_nil,
      insertA_cons, hS, h1, hne]
  have hok : ∃ cfg, buildSchemaConfig (crossDoc a b) = .ok cfg :=
    ⟨_, buildSchemaConfig_ok_of (crossDoc a b) (crossBuilder a b) [] rfl hb rfl rfl⟩
  refine ⟨crossBuilder a b, hb, crossTypeA a b, crossTypeB a b, hlA, hlB,
    ⟨_, hfA, ⟨⟨"otherType", "", [], crossTypeB a b⟩, ?_, rfl⟩⟩,
    ⟨_, hfB, ⟨⟨"queryType", "", [], crossTypeA a b⟩, ?_, rfl⟩⟩, hok⟩
  · rfl
  · rfl

/-- C1 witness at the names of the spec's mutual-reference test. -/
theorem cross_reference_fields_witness :
    lookupA stdTypes "Query" = none ∧
    lookupA stdTypes "OtherType" = none ∧
    ("Query" : String) ≠ "OtherType" ∧
    (∃ c, builderAfterTypes (classify (crossDoc "Query" "OtherType").definitions) = .ok c ∧
      ∃ tA tB,
        lookupA c.typeMap "Query" = some tA ∧
        lookupA c.typeMap "OtherType" = some tB ∧
        (∃ m, forceFieldsThunk c (fieldDefsOfGType tA) = .ok m ∧
          ∃ f, lookupA m "otherType" = some f ∧ f.type = tB) ∧
        (∃ m, forceFieldsThunk c (fieldDefsOfGType tB) = .ok m ∧
          ∃ f, lookupA m "queryType" = some f ∧ f.type = tA) ∧
        (∃ cfg, buildSchemaConfig (crossDoc "Query" "OtherType") = .ok cfg)) :=
  ⟨rfl, rfl, by decide,
   cross_reference_fields_resolve_to_registry_objects "Query" "OtherType"
     rfl rfl (by decide)⟩

/-! ## C2: union member resolution -/

/-- C2.  Building a union resolves each member-type name via the registry
and succeeds even when the member type is defined after the union in the
document (unions are converted after all non-union type definitions); and
when a member resolves to a non-Object type the build fails with the
`Union type "name" is not an Object` error naming the offending member,
returning an error instead of any partial schema config. -/
theorem union_member_resolution_and_object_check :
    (∀ (u m : String),
      lookupA stdTypes u = none → lookupA stdTypes m = none → u ≠ m →
      ∃ c, builderAfterTypes (classify (unionForwardDoc u m).definitions) = .ok c ∧
        lookupA c.typeMap m = some (unionMemberType m) ∧
        lookupA c.typeMap u = some (.union u "" [unionMemberType m]) ∧
        ∃ cfg, buildSchemaConfig (unionForwardDoc u m) = .ok cfg) ∧
    (∀ (u i : String),
      lookupA stdTypes u = none → lookupA stdTypes i = none → u ≠ i →
      buildSchemaConfig (unionInterfaceDoc u i) =
        .error ("Union type \"" ++ i ++ "\" is not an Object")) := by
  constructor
  · intro u m h1 h2 hne
    have hne2 : m ≠ u := fun h => hne h.symm
    have hb : builderAfterTypes (classify (unionForwardDoc u m).definitions) =
        .ok ⟨[], [(m, unionMemberType m),
                  (u, .union u "" [unionMemberType m])], stdTypes⟩ := by
      simp [builderAfterTypes, classify, classifyStep, unionForwardDoc,
        unionMemberNode, unionMemberType, convertTypeDefs, nameOfTypeDef,
        buildType, buildUnionMembers, getNamedType, getNamed, castToObjectPtr,
        extensionFieldDefs, descOf, lookupA_nil, lookupA_cons, insertA_nil,
        insertA_cons, h1, h2, hne, hne2]
    refine ⟨_, hb, ?_, ?_, ?_⟩
    · simp [lookupA_cons]
    · simp [lookupA_cons, hne2]
    · exact ⟨_, buildSchemaConfig_ok_of (unionForwardDoc u m) _ [] rfl hb rfl rfl⟩
  · intro u i h1 h2 hne
    have hne2 : i ≠ u := fun h => hne h.symm
    have hb : builderAfterTypes (classify (unionInterfaceDoc u i).definitions) =
        .error ("Union type \"" ++ i ++ "\" is not an Object") := by
      simp [builderAfterTypes, classify, classifyStep, unionInterfaceDoc,
        convertTypeDefs, nameOfTypeDef, buildType, buildUnionMembers,
        getNamedType, getNamed, castToObjectPtr, extensionFieldDefs, descOf,
        lookupA_nil, lookupA_cons, insertA_nil, insertA_cons, h1, h2, hne, hne2]
    exact buildSchemaConfig_error_of (unionInterfaceDoc u i) _ rfl hb

/-- C2 witness: `union Hello = World` with `World` defined afterwards
builds; `union Hello = I` with `I` an interface fails with the
member-naming error. -/
theorem union_member_resolution_witness :
    lookupA stdTypes "Hello" = none ∧ lookupA stdTypes "World" = none ∧
    ("Hello" : String) ≠ "World" ∧ lookupA stdTypes "I" = none ∧
    ("Hello" : String) ≠ "I" ∧
    (∃ c, builderAfterTypes (classify (unionForwardDoc "Hello" "World").definitions) = .ok c ∧
      lookupA c.typeMap "World" = some (unionMemberType "World") ∧
      lookupA c.typeMap "Hello" = some (.union "Hello" "" [unionMemberType "World"]) ∧
      ∃ cfg, buildSchemaConfig (unionForwardDoc "Hello" "World") = .ok cfg) ∧
    buildSchemaConfig (unionInterfaceDoc "Hello" "I") =
      .error "Union type \"I\" is not an Object" :=
  ⟨rfl, rfl, by decide, rfl, by decide,
   union_member_resolution_and_object_check.1 "Hello" "World" rfl rfl (by decide),
   union_member_resolution_and_object_check.2 "Hello" "I" rfl rfl (by decide)⟩

/-! ## C4: standard-type collisions -/

/-- Conversion-loop invariant for a name in the standard tier: its user
registry entry is only ever the standard type — never a built
redeclaration — and once a definition with that name is processed the
standard type is registered. -/
theorem convertTypeDefs_std_invariant :
    ∀ (defs : List Definition) (c0 c1 : SchemaConfigBuilder),
      convertTypeDefs c0 defs = .ok c1 →
      ∀ (n : String) (st : GType), lookupA c0.stdTypeMap n = some st →
      ((lookupA c0.typeMap n = none ∨ lookupA c0.typeMap n = some st) →
        (lookupA c1.typeMap n = none ∨ lookupA c1.typeMap n = some st)) ∧
      (lookupA c0.typeMap n = some st → lookupA c1.typeMap n = some st) ∧
      ((∃ d ∈ defs, nameOfTypeDef d = some n) →
        lookupA c1.typeMap n = some st) := by
  intro defs
  induction defs with
  | nil =>
    intro c0 c1 h n st hstd
    simp only [convertTypeDefs, Except.ok.injEq] at h
    subst h
    refine ⟨fun hinv => hinv, fun hs => hs, ?_⟩
    rintro ⟨d, hd, -⟩
    exact absurd hd (List.not_mem_nil d)
  | cons d rest ih =>
    intro c0 c1 h n st hstd
    cases hnm : nameOfTypeDef d with
    | none =>
      rw [convertTypeDefs, hnm] at h
      have := ih c0 c1 h n st hstd
      refine ⟨this.1, this.2.1, ?_⟩
      rintro ⟨d2, hd2, hd2n⟩
      rcases List.mem_cons.mp hd2 with rfl | hd2
      · exact absurd hd2n (by simp [hnm])
      · exact this.2.2 ⟨d2, hd2, hd2n⟩
    | some name =>
      cases hsl : lookupA c0.stdTypeMap name with
      | some stT =>
        simp only [convertTypeDefs, hnm, hsl] at h
        have hstd2 : lookupA ({ c0 with
            typeMap := insertA c0.typeMap name stT } : SchemaConfigBuilder).stdTypeMap n = some st := hstd
        have := ih _ c1 h n st hstd2
        by_cases hn : name = n
        · subst hn
          have hstT : stT = st := by
            rw [hstd] at hsl
            exact (Option.some.injEq _ _ ▸ hsl).symm ▸ rfl
          have hins : lookupA (insertA c0.typeMap name stT) name = some st := by
            rw [lookupA_insertA, if_pos rfl, hstT]
          refine ⟨fun _ => Or.inr (this.2.1 hins), fun _ => this.2.1 hins,
            fun _ => this.2.1 hins⟩
        · have hins : lookupA (insertA c0.typeMap name stT) n = lookupA c0.typeMap n := by
            rw [lookupA_insertA, if_neg hn]
          refine ⟨fun hinv => this.1 (hins ▸ hinv), fun hs => this.2.1 (hins ▸ hs), ?_⟩
          rintro ⟨d2, hd2, hd2n⟩
          rcases List.mem_cons.mp hd2 with rfl | hd2
          · rw [hnm] at hd2n
            exact absurd (Option.some.inj hd2n) hn
          · exact this.2.2 ⟨d2, hd2, hd2n⟩
      | none =>
        cases hbt : buildType c0 d with
        | error e =>
          simp only [convertTypeDefs, hnm, hsl, hbt] at h
          exact absurd h (by simp)
        | ok t =>
          simp only [convertTypeDefs, hnm, hsl, hbt] at h
          have hstd2 : lookupA ({ c0 with
              typeMap := insertA c0.typeMap name t } : SchemaConfigBuilder).stdTypeMap n = some st := hstd
          have := ih _ c1 h n st hstd2
          have hn : ¬ name = n := by
            intro hn
            rw [hn, hstd] at hsl
            exact Option.noConfusion hsl
          have hins : lookupA (insertA c0.typeMap name t) n = lookupA c0.typeMap n := by
            rw [lookupA_insertA, if_neg hn]
          refine ⟨fun hinv => this.1 (hins ▸ hinv), fun hs => this.2.1 (hins ▸ hs), ?_⟩
          rintro ⟨d2, hd2, hd2n⟩
          rcases List.mem_cons.mp hd2 with rfl | hd2
          · rw [hnm] at hd2n
            exact absurd (Option.some.inj hd2n) hn
          · exact this.2.2 ⟨d2, hd2, hd2n⟩

/-- C4 counterexample: redeclaring `scalar ID` (otherwise unreferenced)
does have an observable effect on the resulting schema — the standard
`ID` is included in the schema's type list, while the same document
without the redeclaration yields a schema whose type list has no `ID`. -/
theorem std_redeclaration_observable_cex :
    (buildAstSchema idRedeclarationDoc).map
        (fun s => (s.types.map nameOfGType).contains "ID") = .ok true ∧
    (buildAstSchema noRedeclarationDoc).map
        (fun s => (s.types.map nameOfGType).contains "ID") = .ok false := by
  exact ⟨rfl, rfl⟩

/-- C4 amended.  For a type definition whose name collides with a
standard type, the registry keeps the standard type for that name: the
user tier only ever maps the name to the pre-seeded standard type (the
redeclaration is never built or registered over it), and once the
colliding definition is processed the standard type is registered (its
presence in the type list being the redeclaration's only effect);
building twice from the same document yields identical schemas. -/
theorem std_collision_keeps_standard_type :
    ∀ (doc : Document) (c : SchemaConfigBuilder),
      builderAfterTypes (classify doc.definitions) = .ok c →
      ∀ (n : String) (st : GType), lookupA stdTypes n = some st →
        (lookupA c.typeMap n = none ∨ lookupA c.typeMap n = some st) ∧
        ((∃ d ∈ (classify doc.definitions).typeDefs ++
            (classify doc.definitions).unionDefs.map Definition.unionDef,
          nameOfTypeDef d = some n) → lookupA c.typeMap n = some st) ∧
        buildAstSchema doc = buildAstSchema doc := by
  intro doc c hb n st hstd
  have h := convertTypeDefs_std_invariant
    ((classify doc.definitions).typeDefs ++
      (classify doc.definitions).unionDefs.map Definition.unionDef)
    ⟨(classify doc.definitions).typeExtensionsMap, [], stdTypes⟩ c hb n st hstd
  exact ⟨h.1 (Or.inl rfl), h.2.2, rfl⟩

/-- C4 witness: in the `scalar ID` redeclaration document, the registry
entry for `ID` is the standard scalar. -/
theorem std_collision_keeps_standard_witness :
    ∃ c, builderAfterTypes (classify idRedeclarationDoc.definitions) = .ok c ∧
      lookupA c.typeMap "ID" = some (.scalar "ID" "") := by
  refine ⟨_, rfl, ?_⟩
  exact (std_collision_keeps_standard_type idRedeclarationDoc _ rfl "ID"
    (.scalar "ID" "") rfl).2.1
    ⟨.scalarDef ⟨"ID", none⟩, by decide, rfl⟩

/-! ## C3: root selection -/

theorem lookupA_eq_none_of_not_mem {α : Type} (m : List (String × α)) (x : String)
    (h : x ∉ m.map Prod.fst) : lookupA m x = none := by
  induction m with
  | nil => rfl
  | cons hd tl ih =>
    obtain ⟨k, v⟩ := hd
    simp only [List.map_cons, List.mem_cons, not_or] at h
    rw [lookupA_cons, if_neg (fun he => h.1 he.symm)]
    exact ih h.2

theorem mem_keys_insertA {α : Type} (m : List (String × α)) (k x : String) (v : α) :
    x ∈ (insertA m k v).map Prod.fst ↔ x ∈ m.map Prod.fst ∨ x = k := by
  induction m with
  | nil => simp [insertA]
  | cons hd tl ih =>
    obtain ⟨k0, v0⟩ := hd
    by_cases he : k0 = k
    · subst he
      simp [insertA]
      intro h
      simp [h]
    · simp only [insertA, if_neg he, List.map_cons, List.mem_cons, ih]
      tauto

theorem nodup_keys_insertA {α : Type} (m : List (String × α)) (k : String) (v : α)
    (h : (m.map Prod.fst).Nodup) : ((insertA m k v).map Prod.fst).Nodup := by
  induction m with
  | nil => simp [insertA]
  | cons hd tl ih =>
    obtain ⟨k0, v0⟩ := hd
    simp only [List.map_cons, List.nodup_cons] at h
    by_cases he : k0 = k
    · subst he
      rw [insertA, if_pos rfl]
      simp only [List.map_cons, List.nodup_cons]
      exact h
    · simp only [insertA, if_neg he, List.map_cons, List.nodup_cons,
        mem_keys_insertA]
      exact ⟨by
        rintro (hm | rfl)
        · exact h.1 hm
        · exact he rfl, ih h.2⟩

/-- The conversion loop preserves distinctness of registry keys. -/
theorem convertTypeDefs_nodup_keys :
    ∀ (defs : List Definition) (c0 c1 : SchemaConfigBuilder),
      convertTypeDefs c0 defs = .ok c1 →
      (c0.typeMap.map Prod.fst).Nodup → (c1.typeMap.map Prod.fst).Nodup := by
  intro defs
  induction defs with
  | nil =>
    intro c0 c1 h hn
    simp only [convertTypeDefs, Except.ok.injEq] at h
    subst h
    exact hn
  | cons d rest ih =>
    intro c0 c1 h hn
    cases hnm : nameOfTypeDef d with
    | none =>
      rw [convertTypeDefs, hnm] at h
      exact ih c0 c1 h hn
    | some name =>
      cases hsl : lookupA c0.stdTypeMap name with
      | some stT =>
        simp only [convertTypeDefs, hnm, hsl] at h
        exact ih _ c1 h (nodup_keys_insertA c0.typeMap name stT hn)
      | none =>
        cases hbt : buildType c0 d with
        | error e =>
          simp only [convertTypeDefs, hnm, hsl, hbt] at h
          exact absurd h (by simp)
        | ok t =>
          simp only [convertTypeDefs, hnm, hsl, hbt] at h
          exact ih _ c1 h (nodup_keys_insertA c0.typeMap name t hn)

theorem addTypesAndRootsAux_subscription_fixed :
    ∀ (tm : List (String × GType)) (cfg : SchemaConfig),
      (addTypesAndRootsAux cfg tm).subscription = cfg.subscription := by
  intro tm
  induction tm with
  | nil => intro cfg; rfl
  | cons hd tl ih =>
    intro cfg
    obtain ⟨k, t⟩ := hd
    rw [addTypesAndRootsAux]
    rw [ih]
    by_cases hq : k = "Query"
    · simp only [hq, if_pos rfl]
      cases castToObjectPtr t <;> rfl
    · by_cases hm : k = "Mutation"
      · simp only [if_neg hq, hm, if_pos rfl]
        cases castToObjectPtr t <;> rfl
      · simp only [if_neg hq, if_neg hm]

theorem addTypesAndRootsAux_query_char :
    ∀ (tm : List (String × GType)) (cfg : SchemaConfig),
      (tm.map Prod.fst).Nodup →
      (addTypesAndRootsAux cfg tm).query =
        (match lookupA tm "Query" with
         | some t =>
           match castToObjectPtr t with
           | some o => some o
           | none => cfg.query
         | none => cfg.query) := by
  intro tm
  induction tm with
  | nil => intro cfg _; rfl
  | cons hd tl ih =>
    intro cfg hn
    obtain ⟨k, t⟩ := hd
    simp only [List.map_cons, List.nodup_cons] at hn
    rw [addTypesAndRootsAux, ih _ hn.2]
    by_cases hq : k = "Query"
    · subst hq
      have hnone : lookupA tl "Query" = none :=
        lookupA_eq_none_of_not_mem tl "Query" hn.1
      rw [hnone]
      cases hc : castToObjectPtr t <;> simp [lookupA_cons, hc]
    · rw [lookupA_cons, if_neg hq]
      cases hlt : lookupA tl "Query" <;>
        by_cases hm : k = "Mutation" <;>
          cases hc : castToObjectPtr t <;> simp [hq, hm, hc]

theorem addTypesAndRootsAux_mutation_char :
    ∀ (tm : List (String × GType)) (cfg : SchemaConfig),
      (tm.map Prod.fst).Nodup →
      (addTypesAndRootsAux cfg tm).mutation =
        (match lookupA tm "Mutation" with
         | some t =>
           match castToObjectPtr t with
           | some o => some o
           | none => cfg.mutation
         | none => cfg.mutation) := by
  intro tm
  induction tm with
  | nil => intro cfg _; rfl
  | cons hd tl ih =>
    intro cfg hn
    obtain ⟨k, t⟩ := hd
    simp only [List.map_cons, List.nodup_cons] at hn
    rw [addTypesAndRootsAux, ih _ hn.2]
    by_cases hm : k = "Mutation"
    · subst hm
      have hnone : lookupA tl "Mutation" = none :=
        lookupA_eq_none_of_not_mem tl "Mutation" hn.1
      rw [hnone]
      cases hc : castToObjectPtr t <;> simp [lookupA_cons, hc]
    · rw [lookupA_cons, if_neg hm]
      cases hlt : lookupA tl "Mutation" <;>
        by_cases hq : k = "Query" <;>
          cases hc : castToObjectPtr t <;> simp [hq, hm, hc]

theorem findOperation_eq_none_of_not_mem (op : String) :
    ∀ (l : List OperationTypeDefinition),
      op ∉ l.map OperationTypeDefinition.operation → findOperation op l = none := by
  intro l
  induction l with
  | nil => intro _; rfl
  | cons e rest ih =>
    intro h
    simp only [List.map_cons, List.mem_cons, not_or] at h
    rw [findOperation, if_neg (fun he => h.1 he.symm)]
    exact ih h.2

/-- Characterization of the schema-block operation loop: with each
operation declared at most once, each slot holds the declared name's
resolution when it is an Object, else the initial value. -/
theorem schemaOperationTypesAux_char :
    ∀ (l : List OperationTypeDefinition) (c : SchemaConfigBuilder)
      (ops0 opsF : SchemaOperations),
      schemaOperationTypesAux c ops0 l = .ok opsF →
      (l.map OperationTypeDefinition.operation).Nodup →
      opsF.query = opRootFormula c l "query" ops0.query ∧
      opsF.mutation = opRootFormula c l "mutation" ops0.mutation ∧
      opsF.subscription = opRootFormula c l "subscription" ops0.subscription := by
  intro l
  induction l with
  | nil =>
    intro c ops0 opsF h _
    simp only [schemaOperationTypesAux, Except.ok.injEq] at h
    subst h
    exact ⟨rfl, rfl, rfl⟩
  | cons e rest ih =>
    intro c ops0 opsF h hn
    simp only [List.map_cons, List.nodup_cons] at hn
    have hfq : ∀ op : String, e.operation = op → findOperation op rest = none :=
      fun op hop =>
        findOperation_eq_none_of_not_mem op rest (hop ▸ hn.1)
    cases hg : getNamedType c e.typeName with
    | error err =>
      simp only [schemaOperationTypesAux, hg] at h
      exact absurd h (by simp)
    | ok t =>
      cases hc : castToObjectPtr t with
      | none =>
        simp only [schemaOperationTypesAux, hg, hc] at h
        have hih := ih c ops0 opsF h hn.2
        refine ⟨?_, ?_, ?_⟩
        · by_cases hq : e.operation = "query"
          · rw [hih.1]
            simp [opRootFormula, findOperation, hq, hg, hc, hfq _ hq]
          · rw [hih.1]
            simp [opRootFormula, findOperation, hq]
        · by_cases hm : e.operation = "mutation"
          · rw [hih.2.1]
            simp [opRootFormula, findOperation, hm, hg, hc, hfq _ hm]
          · rw [hih.2.1]
            simp [opRootFormula, findOperation, hm]
        · by_cases hs : e.operation = "subscription"
          · rw [hih.2.2]
            simp [opRootFormula, findOperation, hs, hg, hc, hfq _ hs]
          · rw [hih.2.2]
            simp [opRootFormula, findOperation, hs]
      | some o =>
        by_cases hq : e.operation = "query"
        · simp only [schemaOperationTypesAux, hg, hc, hq, if_pos] at h
          have hih := ih c _ opsF h hn.2
          refine ⟨?_, ?_, ?_⟩
          · rw [hih.1]
            simp [opRootFormula, findOperation, hq, hg, hc, hfq _ hq]
          · rw [hih.2.1]
            simp [opRootFormula, findOperation, hq]
          · rw [hih.2.2]
            simp [opRootFormula, findOperation, hq]
        · by_cases hm : e.operation = "mutation"
          · simp only [schemaOperationTypesAux, hg, hc, hm, if_pos, if_neg hq] at h
            have hih := ih c _ opsF h hn.2
            refine ⟨?_, ?_, ?_⟩
            · rw [hih.1]
              simp [opRootFormula, findOperation, hm]
            · rw [hih.2.1]
              simp [opRootFormula, findOperation, hm, hg, hc, hfq _ hm]
            · rw [hih.2.2]
              simp [opRootFormula, findOperation, hm]
          · by_cases hs : e.operation = "subscription"
            · simp only [schemaOperationTypesAux, hg, hc, hs, if_pos, if_neg hq,
                if_neg hm] at h
              have hih := ih c _ opsF h hn.2
              refine ⟨?_, ?_, ?_⟩
              · rw [hih.1]
                simp [opRootFormula, findOperation, hs]
              · rw [hih.2.1]
                simp [opRootFormula, findOperation, hs]
              · rw [hih.2.2]
                simp [opRootFormula, findOperation, hs, hg, hc, hfq _ hs]
            · simp only [schemaOperationTypesAux, hg, hc, if_neg hq, if_neg hm,
                if_neg hs] at h
              have hih := ih c ops0 opsF h hn.2
              refine ⟨?_, ?_, ?_⟩
              · rw [hih.1]
                simp [opRootFormula, findOperation, hq]
              · rw [hih.2.1]
                simp [opRootFormula, findOperation, hm]
              · rw [hih.2.2]
                simp [opRootFormula, findOperation, hs]

theorem applySchemaOperations_proj (cfg : SchemaConfig) (ops : SchemaOperations) :
    (applySchemaOperations cfg ops).query =
      (match ops.query with | some q => some q | none => cfg.query) ∧
    (applySchemaOperations cfg ops).mutation =
      (match ops.mutation with | some m => some m | none => cfg.mutation) ∧
    (applySchemaOperations cfg ops).subscription =
      (match ops.subscription with | some s => some s | none => cfg.subscription) := by
  cases hq : ops.query <;> cases hm : ops.mutation <;> cases hs : ops.subscription <;>
    simp [applySchemaOperations, hq, hm, hs]

/-- C3 counterexample: in a document whose schema block declares only
`query`, the omitted `subscription` operation does NOT fall back to the
convention-named `Subscription` object type, even though that type is
present (it appears in the config's type list): the resulting config's
subscription root is `none`. -/
theorem schema_block_subscription_no_fallback_cex :
    (buildSchemaConfig subscriptionFallbackDoc).map
        (fun cfg => cfg.subscription) = .ok none ∧
    (buildSchemaConfig subscriptionFallbackDoc).map
        (fun cfg => (cfg.types.map nameOfGType).contains "Subscription") =
      .ok true ∧
    (buildSchemaConfig subscriptionFallbackDoc).map
        (fun cfg => cfg.query.map nameOfGType) = .ok (some "QRoot") :=
  ⟨rfl, rfl, rfl⟩

/-- C3 amended.  For every document with an explicit schema block that
declares each operation at most once and whose build succeeds: a declared
operation type overrides the convention-named type exactly when its name
resolves to an Object type (a declared non-Object resolution does not
override); omitted (or not-overriding) query and mutation operations fall
back to the registry types conventionally named `Query`/`Mutation` when
those are Objects; an omitted subscription has no conventional fallback —
the subscription root is exactly what the block contributes. -/
theorem schema_block_root_selection :
    ∀ (doc : Document) (sd : SchemaDefinition) (c : SchemaConfigBuilder)
      (cfg : SchemaConfig),
      (classify doc.definitions).schemaDef = some sd →
      builderAfterTypes (classify doc.definitions) = .ok c →
      (sd.operationTypes.map OperationTypeDefinition.operation).Nodup →
      buildSchemaConfig doc = .ok cfg →
      cfg.query = (match declaredRoot c sd "query" with
                   | some o => some o
                   | none => conventionalRoot c "Query") ∧
      cfg.mutation = (match declaredRoot c sd "mutation" with
                      | some o => some o
                      | none => conventionalRoot c "Mutation") ∧
      cfg.subscription = declaredRoot c sd "subscription" := by
  intro doc sd c cfg hsd hb hnd h
  have hkeys : (c.typeMap.map Prod.fst).Nodup :=
    convertTypeDefs_nodup_keys _ _ c hb (by simp)
  simp only [buildSchemaConfig, hsd, hb, Option.isNone_some, Bool.and_false,
    Bool.false_eq_true, if_false] at h
  cases hops : getSchemaOperationTypes c sd with
  | error e =>
    rw [hops] at h
    exact absurd h (by simp)
  | ok ops =>
    rw [hops] at h
    cases hd : buildDirectivesList c [] (classify doc.definitions).directiveDefs with
    | error e =>
      rw [hd] at h
      exact absurd h (by simp)
    | ok us =>
      rw [hd] at h
      simp only [Except.ok.injEq] at h
      subst h
      have hchar := schemaOperationTypesAux_char sd.operationTypes c
        ⟨none, none, none⟩ ops hops hnd
      have hproj := applySchemaOperations_proj
        (addTypesAndRoots {} c.typeMap) ops
      have hbaseq : (addTypesAndRoots {} c.typeMap).query =
          conventionalRoot c "Query" := by
        rw [addTypesAndRoots, addTypesAndRootsAux_query_char c.typeMap _ hkeys]
        cases hl : lookupA c.typeMap "Query" with
        | none => simp [conventionalRoot, hl]
        | some t =>
          cases hc : castToObjectPtr t <;> simp [conventionalRoot, hl, hc]
      have hbasem : (addTypesAndRoots {} c.typeMap).mutation =
          conventionalRoot c "Mutation" := by
        rw [addTypesAndRoots, addTypesAndRootsAux_mutation_char c.typeMap _ hkeys]
        cases hl : lookupA c.typeMap "Mutation" with
        | none => simp [conventionalRoot, hl]
        | some t =>
          cases hc : castToObjectPtr t <;> simp [conventionalRoot, hl, hc]
      have hbases : (addTypesAndRoots {} c.typeMap).subscription = none := by
        rw [addTypesAndRoots, addTypesAndRootsAux_subscription_fixed]
      refine ⟨?_, ?_, ?_⟩
      · show (applySchemaOperations (addTypesAndRoots {} c.typeMap) ops).query = _
        rw [hproj.1, hchar.1, hbaseq]
        rfl
      · show (applySchemaOperations (addTypesAndRoots {} c.typeMap) ops).mutation = _
        rw [hproj.2.1, hchar.2.1, hbasem]
        rfl
      · show (applySchemaOperations (addTypesAndRoots {} c.typeMap) ops).subscription = _
        rw [hproj.2.2, hchar.2.2, hbases]
        show _ = opRootFormula c sd.operationTypes "subscription" none
        cases hf : opRootFormula c sd.operationTypes "subscription" none <;> rfl

/-- C3 witness: on the schema block declaring only `query: QRoot`, the
amended root-selection formula holds. -/
theorem schema_block_root_selection_witness :
    ∃ (c : SchemaConfigBuilder) (cfg : SchemaConfig),
      (classify subscriptionFallbackDoc.definitions).schemaDef =
        some ⟨[⟨"query", "QRoot"⟩]⟩ ∧
      builderAfterTypes (classify subscriptionFallbackDoc.definitions) = .ok c ∧
      buildSchemaConfig subscriptionFallbackDoc = .ok cfg ∧
      cfg.query = (match declaredRoot c ⟨[⟨"query", "QRoot"⟩]⟩ "query" with
                   | some o => some o
                   | none => conventionalRoot c "Query") ∧
      cfg.mutation = (match declaredRoot c ⟨[⟨"query", "QRoot"⟩]⟩ "mutation" with
                      | some o => some o
                      | none => conventionalRoot c "Mutation") ∧
      cfg.subscription = declaredRoot c ⟨[⟨"query", "QRoot"⟩]⟩ "subscription" := by
  refine ⟨_, _, rfl, rfl, rfl, ?_⟩
  exact schema_block_root_selection subscriptionFallbackDoc
    ⟨[⟨"query", "QRoot"⟩]⟩ _ _ rfl rfl (by decide) rfl

/-! ## C8: directive defaulting -/

theorem buildDirectivesList_names :
    ∀ (defs : List DirectiveDefinition) (c : SchemaConfigBuilder)
      (acc us : List Directive),
      buildDirectivesList c acc defs = .ok us →
      us.map Directive.name =
        acc.map Directive.name ++ defs.map DirectiveDefinition.name := by
  intro defs
  induction defs with
  | nil =>
    intro c acc us h
    simp only [buildDirectivesList, Except.ok.injEq] at h
    subst h
    simp
  | cons d rest ih =>
    intro c acc us h
    cases hbd : buildDirective c d with
    | error e =>
      simp only [buildDirectivesList, hbd] at h
      exact absurd h (by simp)
    | ok dt =>
      simp only [buildDirectivesList, hbd] at h
      have hname : dt.name = d.name := by
        cases hbm : buildArgumentMap c d.arguments with
        | error e =>
          simp only [buildDirective, hbm] at hbd
          exact absurd hbd (by simp)
        | ok am =>
          simp only [buildDirective, hbm, Except.ok.injEq] at hbd
          subst hbd
          rfl
      rw [ih c (acc ++ [dt]) us h]
      simp [hname]

theorem foldl_addSpecifiedStep :
    ∀ (builtins declared extra : List Directive),
      (∀ b ∈ builtins, ∀ x ∈ extra, ¬ x.name = b.name) →
      (builtins.map Directive.name).Nodup →
      List.foldl addSpecifiedStep (declared ++ extra) builtins =
        declared ++ extra ++
          builtins.filter
            (fun sd => !(declared.any (fun d => d.name = sd.name))) := by
  intro builtins
  induction builtins with
  | nil =>
    intro declared extra _ _
    simp
  | cons b rest ih =>
    intro declared extra hdis hnd
    simp only [List.map_cons, List.nodup_cons] at hnd
    rw [List.foldl_cons]
    have hextra : extra.any (fun d => d.name = b.name) = false := by
      rw [List.any_eq_false]
      intro x hx
      simpa using hdis b (List.mem_cons_self b rest) x hx
    cases hdecl : declared.any (fun d => d.name = b.name) with
    | true =>
      have hstep : addSpecifiedStep (declared ++ extra) b = declared ++ extra := by
        simp [addSpecifiedStep, List.any_append, hdecl]
      rw [hstep,
        ih declared extra
          (fun b2 hb2 x hx => hdis b2 (List.mem_cons_of_mem b hb2) x hx) hnd.2]
      simp [List.filter_cons, hdecl]
    | false =>
      have hstep : addSpecifiedStep (declared ++ extra) b =
          declared ++ (extra ++ [b]) := by
        simp [addSpecifiedStep, List.any_append, hdecl, hextra]
      rw [hstep,
        ih declared (extra ++ [b]) ?hdis2 hnd.2]
      · simp [List.filter_cons, hdecl, List.append_assoc]
      case hdis2 =>
        intro b2 hb2 x hx
        rcases List.mem_append.mp hx with hx | hx
        · exact hdis b2 (List.mem_cons_of_mem b hb2) x hx
        · have hxb : x = b := by simpa using hx
          subst hxb
          intro he
          exact hnd.1 (he ▸ List.mem_map_of_mem Directive.name hb2)

theorem addSpecifiedDirectives_eq (declared : List Directive) :
    addSpecifiedDirectives declared = declared ++ missingSpecified declared := by
  have h := foldl_addSpecifiedStep specifiedDirectivesList declared []
    (fun b _ x hx => absurd hx (List.not_mem_nil x)) (by decide)
  simpa [addSpecifiedDirectives, missingSpecified] using h

theorem count_append_missing (us : List Directive) (n : String)
    (hcount : (us.map Directive.name).count n = 1) :
    (((us ++ missingSpecified us).map Directive.name).count n) = 1 := by
  have hmem : n ∈ us.map Directive.name := by
    have h0 : 0 < (us.map Directive.name).count n := by omega
    exact List.count_pos_iff.mp h0
  have hany : us.any (fun d => d.name = n) = true := by
    rw [List.any_eq_true]
    obtain ⟨d, hd, hdn⟩ := List.mem_map.mp hmem
    exact ⟨d, hd, by simp [hdn]⟩
  have hmiss : ((missingSpecified us).map Directive.name).count n = 0 := by
    rw [List.count_eq_zero]
    intro hmm
    obtain ⟨d, hd, hdn⟩ := List.mem_map.mp hmm
    have hdm := List.mem_filter.mp hd
    have hfa : us.any (fun x => x.name = d.name) = false := by
      simpa using hdm.2
    rw [hdn] at hfa
    rw [hany] at hfa
    exact Bool.noConfusion hfa
  rw [List.map_append, List.count_append, hmiss, hcount]

/-- C8.  For every document whose build yields a schema, the schema's
directive list is the user-declared directives, in declaration order
(their names are exactly the declared names in order), followed by each
built-in directive (include, skip, deprecated, specifiedBy) whose name
was not already declared; and when a built-in name is declared exactly
once by the user, the final list holds exactly one entry of that name. -/
theorem directive_defaulting :
    ∀ (doc : Document) (s : Schema),
      buildAstSchema doc = .ok s →
      ∃ (c : SchemaConfigBuilder) (us : List Directive),
        builderAfterTypes (classify doc.definitions) = .ok c ∧
        buildDirectivesList c [] (classify doc.definitions).directiveDefs = .ok us ∧
        us.map Directive.name =
          (classify doc.definitions).directiveDefs.map DirectiveDefinition.name ∧
        s.directives = us ++ missingSpecified us ∧
        (∀ sd ∈ specifiedDirectivesList,
          (us.map Directive.name).count sd.name = 1 →
          (s.directives.map Directive.name).count sd.name = 1) := by
  intro doc s h
  cases hcfg : buildSchemaConfig doc with
  | error e =>
    simp only [buildAstSchema, hcfg] at h
    exact absurd h (by simp)
  | ok config =>
    simp only [buildAstSchema, hcfg] at h
    cases hq : config.query with
    | none =>
      simp only [newSchema, hq] at h
      exact absurd h (by simp)
    | some q =>
      simp only [newSchema, hq, Except.ok.injEq] at h
      subst h
      have hdir : ∃ (c : SchemaConfigBuilder) (us : List Directive),
          builderAfterTypes (classify doc.definitions) = .ok c ∧
          buildDirectivesList c [] (classify doc.definitions).directiveDefs = .ok us ∧
          config.directives = addSpecifiedDirectives us := by
        cases hemp : ((classify doc.definitions).typeDefs.isEmpty &&
            (classify doc.definitions).typeExtensionsMap.isEmpty &&
            (classify doc.definitions).directiveDefs.isEmpty &&
            (classify doc.definitions).schemaDef.isNone) with
        | true =>
          simp only [buildSchemaConfig, hemp, if_true] at hcfg
          simp only [Except.ok.injEq] at hcfg
          subst hcfg
          exact absurd hq (by simp)
        | false =>
          simp only [buildSchemaConfig, hemp, Bool.false_eq_true, if_false] at hcfg
          cases hb : builderAfterTypes (classify doc.definitions) with
          | error e =>
            rw [hb] at hcfg
            exact absurd hcfg (by simp)
          | ok c =>
            rw [hb] at hcfg
            cases hsd : (classify doc.definitions).schemaDef with
            | none =>
              simp only [hsd] at hcfg
              cases hd : buildDirectivesList c []
                  (classify doc.definitions).directiveDefs with
              | error e =>
                rw [hd] at hcfg
                exact absurd hcfg (by simp)
              | ok us =>
                rw [hd] at hcfg
                simp only [Except.ok.injEq] at hcfg
                subst hcfg
                exact ⟨c, us, rfl, hd, rfl⟩
            | some sd =>
              simp only [hsd] at hcfg
              cases hops : getSchemaOperationTypes c sd with
              | error e =>
                rw [hops] at hcfg
                exact absurd hcfg (by simp)
              | ok ops =>
                rw [hops] at hcfg
                cases hd : buildDirectivesList c []
                    (classify doc.definitions).directiveDefs with
                | error e =>
                  rw [hd] at hcfg
                  exact absurd hcfg (by simp)
                | ok us =>
                  rw [hd] at hcfg
                  simp only [Except.ok.injEq] at hcfg
                  subst hcfg
                  exact ⟨c, us, rfl, hd, rfl⟩
      obtain ⟨c, us, hb, hd, hds⟩ := hdir
      refine ⟨c, us, hb, hd, ?_, ?_, ?_⟩
      · simpa using buildDirectivesList_names
          (classify doc.definitions).directiveDefs c [] us hd
      · show config.directives = _
        rw [hds, addSpecifiedDirectives_eq]
      · intro sd _ hcount
        show ((config.directives.map Directive.name).count sd.name) = 1
        rw [hds, addSpecifiedDirectives_eq]
        exact count_append_missing us sd.name hcount

/-- C8 witness: a document redeclaring `skip` and declaring `@foo` yields
the directive list `foo, skip, include, deprecated, specifiedBy` — user
declarations first in order, missing built-ins appended, and exactly one
`skip` entry. -/
theorem directive_defaulting_witness :
    ∃ s, buildAstSchema skipRedeclarationDoc = .ok s ∧
      ∃ (c : SchemaConfigBuilder) (us : List Directive),
        builderAfterTypes (classify skipRedeclarationDoc.definitions) = .ok c ∧
        buildDirectivesList c []
          (classify skipRedeclarationDoc.definitions).directiveDefs = .ok us ∧
        us.map Directive.name =
          (classify skipRedeclarationDoc.definitions).directiveDefs.map
            DirectiveDefinition.name ∧
        s.directives = us ++ missingSpecified us ∧
        (∀ sd ∈ specifiedDirectivesList,
          (us.map Directive.name).count sd.name = 1 →
          (s.directives.map Directive.name).count sd.name = 1) := by
  refine ⟨_, rfl, ?_⟩
  exact directive_defaulting skipRedeclarationDoc _ rfl

end GraphQLBuild
